import Mathlib

/-!
# User authentication app: lockout policy, sign-up and two-factor stage

A shallow embedding of `src/User_Authentication_App.cpp` (classes `User` and
`UserAuthentication`) and theorems about it.

Modelling conventions.

* A C++ `std::string` is a Lean `String`; one C++ `char` is one Lean `Char`,
  and `length()` is `String.length`.
* `std::unordered_map<string, T>` is a partial function `String → Option T`
  (a key is present iff the function returns `some`); `m[k] = v` is `assign`,
  and reading `m[k]` on an absent key default-constructs the value first.
* `std::hash<string>` is implementation defined and is a parameter `hash`.
* Every read of the outside world is an argument of the operation that reads
  it: the tokens typed on `cin`, the six draws of the random distribution, the
  two reads of `chrono::steady_clock::now()` (line 168 and line 43), and the
  wall clock read by `logEvent`. The input of the 2FA prompt is a list of
  tokens and a flag telling whether the input ends after them: a read of
  `cin >> secretKey` at the end of the input fails and leaves the variable
  unchanged.
* `steady_clock::time_point` is an `Int` number of clock ticks (nanoseconds);
  a default-constructed time point is `0`.
* The failed-attempt counter is a C++ `int`, modelled by `Int`: in every state
  the program reaches it lies in `0..3`, so 32-bit overflow does not occur.
* Console messages are modelled by the outcome constructors documented below.
-/

set_option autoImplicit false

namespace UserAuth

/-! ## Regular expressions (for `std::regex_match` in `isValidEmail`) -/

/-- Regular expressions over `Char`; `cls p` is a bracket expression or a
literal character, given by its membership test. -/
inductive Regex where
  | nothing : Regex
  | eps : Regex
  | cls : (Char → Bool) → Regex
  | seq : Regex → Regex → Regex
  | alt : Regex → Regex → Regex
  | star : Regex → Regex

namespace Regex

/-- Does the expression match the empty string? -/
def nullable : Regex → Bool
  | nothing => false
  | eps => true
  | cls _ => false
  | seq r s => r.nullable && s.nullable
  | alt r s => r.nullable || s.nullable
  | star _ => true

/-- Brzozowski derivative: what remains to be matched after reading `c`. -/
def deriv : Regex → Char → Regex
  | nothing, _ => nothing
  | eps, _ => nothing
  | cls p, c => if p c then eps else nothing
  | seq r s, c =>
    if r.nullable then alt (seq (r.deriv c) s) (s.deriv c) else seq (r.deriv c) s
  | alt r s, c => alt (r.deriv c) (s.deriv c)
  | star r, c => seq (r.deriv c) (star r)

/-- The whole input matches the expression (`std::regex_match`). -/
def fullMatch (r : Regex) : List Char → Bool
  | [] => r.nullable
  | c :: cs => fullMatch (r.deriv c) cs

/-- The quantifier `+`: one or more. -/
def plus (r : Regex) : Regex := seq r (star r)

/-- The quantifier `{2,}`: two or more. -/
def atLeastTwo (r : Regex) : Regex := seq r (seq r (star r))

end Regex

/-- Range test `lo-hi` inside a bracket expression. -/
def inRange (lo hi c : Char) : Bool := decide (lo.toNat ≤ c.toNat) && decide (c.toNat ≤ hi.toNat)

/-- The class `[a-zA-Z]`. -/
def isLetter (c : Char) : Bool := inRange 'a' 'z' c || inRange 'A' 'Z' c

/-- The class `[a-zA-Z0-9._%+-]`. -/
def isLocalChar (c : Char) : Bool :=
  isLetter c || inRange '0' '9' c || c == '.' || c == '_' || c == '%' || c == '+' || c == '-'

/-- The class `[a-zA-Z0-9.-]`. -/
def isDomainChar (c : Char) : Bool :=
  isLetter c || inRange '0' '9' c || c == '.' || c == '-'

/-- The pattern `^[a-zA-Z0-9._%+-]+@[a-zA-Z0-9.-]+\.[a-zA-Z]{2,}$` of line 254. -/
def emailPattern : Regex :=
  Regex.seq (Regex.plus (Regex.cls isLocalChar))
    (Regex.seq (Regex.cls (fun c => c == '@'))
      (Regex.seq (Regex.plus (Regex.cls isDomainChar))
        (Regex.seq (Regex.cls (fun c => c == '.'))
          (Regex.atLeastTwo (Regex.cls isLetter)))))

/-! ## class `User` -/

/-- A `chrono::steady_clock::time_point`, in clock ticks (nanoseconds). -/
abbrev TimePoint := Int

/-- Number of steady-clock ticks in one second. -/
def ticksPerSecond : Int := 1000000000

/-- The data members of class `User` (lines 15-19). -/
structure User where
  email : String
  passwordHash : String
  secretKey : String
  isLocked : Bool
  lastLoginAttempt : TimePoint
  deriving DecidableEq

/-- Method `User::hashPassword` (lines 46-48): the decimal rendering of `std::hash`. -/
def hashPassword (hash : String → Nat) (password : String) : String :=
  toString (hash password)

/-- The alphabet of line 51. -/
def characters : String := "0123456789ABCDEFGHIJKLMNOPQRSTUVWXYZ"

/-- The character `characters[k]` for an index the distribution can return,
which is always inside the 36-character alphabet. -/
def charAt (k : Fin 36) : Char :=
  characters.toList.get ⟨k.val, Nat.lt_of_lt_of_le k.isLt (by decide)⟩

/-- Method `User::generateSecretKey` (lines 50-61); `draw i` is the value of the
`i`-th call `distribution(rng)`, an index in `0..35`. -/
def generateSecretKey (draw : Nat → Fin 36) : String :=
  (List.range 6).foldl (fun key i => key.push (charAt (draw i))) ""

/-- The constructor `User(_email, _password)` (lines 23-26). -/
def User.new (hash : String → Nat) (email password : String) (draw : Nat → Fin 36) : User :=
  { email := email
    passwordHash := hashPassword hash password
    secretKey := generateSecretKey draw
    isLocked := false
    lastLoginAttempt := 0 }

/-! ## class `UserAuthentication` -/

/-- One line appended to the log file by `logEvent`. -/
structure LogEntry where
  time : Int
  email : String
  message : String
  deriving DecidableEq

/-- The data members of class `UserAuthentication` (lines 66-70); `logFile` is
the list of entries written so far, oldest first. -/
structure UserAuthentication where
  userDatabase : String → Option User
  loginAttempts : String → Option Int
  logFileOpen : Bool
  logFile : List LogEntry

/-- Line 68. -/
def maxLoginAttempts : Int := 3

/-- Line 69. -/
def lockoutDurationSeconds : Int := 60

/-- The value `chrono::seconds(lockoutDurationSeconds)` in clock ticks. -/
def lockoutDuration : Int := lockoutDurationSeconds * ticksPerSecond

/-- The assignment `m[k] = v` on an `unordered_map`. -/
def assign {α : Type} (m : String → Option α) (k : String) (v : α) : String → Option α :=
  fun k' => if k' = k then some v else m k'

/-- The state built by the constructor (lines 73-78): empty maps, and the log
file open or not. -/
def UserAuthentication.init (logFileOpen : Bool) : UserAuthentication :=
  { userDatabase := fun _ => none
    loginAttempts := fun _ => none
    logFileOpen := logFileOpen
    logFile := [] }

/-- Method `isValidEmail` (lines 252-256). -/
def isValidEmail (email : String) : Bool := emailPattern.fullMatch email.toList

/-- Method `isValidPassword` (lines 258-262). -/
def isValidPassword (password : String) : Bool := decide (password.length ≥ 8)

/-- Method `logEvent` (lines 264-273); `wall` is the wall-clock time it reads. -/
def logEvent (auth : UserAuthentication) (wall : Int) (email message : String) :
    UserAuthentication :=
  if auth.logFileOpen then
    { auth with logFile := auth.logFile ++ [{ time := wall, email := email, message := message }] }
  else auth

/-- How `signUpProcess` ends, by the message it prints: line 122
(`DuplicateIdentity`), line 130 (`InvalidIdentity`), line 135 (`WeakPassword`),
lines 144-145 (`Success`, with the 2FA code shown). -/
inductive SignUpOutcome where
  | Success (twoFactorCode : String)
  | DuplicateIdentity
  | InvalidIdentity
  | WeakPassword
  deriving DecidableEq

/-- State and outcome of one `signUpProcess`. -/
structure SignUpResult where
  state : UserAuthentication
  outcome : SignUpOutcome

/-- Method `signUpProcess` (lines 114-146). -/
def signUpProcess (hash : String → Nat) (auth : UserAuthentication)
    (email password : String) (draw : Nat → Fin 36) : SignUpResult :=
  if (auth.userDatabase email).isSome then ⟨auth, .DuplicateIdentity⟩
  else if !isValidEmail email then ⟨auth, .InvalidIdentity⟩
  else if !isValidPassword password then ⟨auth, .WeakPassword⟩
  else
    let newUser := User.new hash email password draw
    ⟨{ auth with userDatabase := assign auth.userDatabase email newUser },
      .Success newUser.secretKey⟩

/-- What the 2FA loop prints for an input it does not accept: line 199
(`Resent`, with the code shown) or line 204 (`InvalidCode`). -/
inductive Reply where
  | Resent (code : String)
  | InvalidCode
  deriving DecidableEq

/-- How `loginProcess` ends, by the message it prints: line 156
(`UserNotFound`), line 171 (`AccountLocked`), line 180 (`InvalidPassword`),
lines 210-211 (`Authenticated`, with the e-mail shown). Two more for a login
that does not return. `AwaitingCode`: the 2FA loop has read every token typed
so far and is blocked in the read of line 194, more input can follow.
`NeverReturns`: the input has ended and the 2FA loop goes round for ever. -/
inductive LoginOutcome where
  | UserNotFound
  | AccountLocked
  | InvalidPassword
  | Authenticated (email : String)
  | AwaitingCode
  | NeverReturns
  deriving DecidableEq

/-- The passes of the 2FA loop (lines 192-208) once the input has ended: the
read `cin >> secretKey` of line 194 fails and leaves the variable `secretKey`
as it is, so each pass tests what the variable already holds. The result is
`some replies` when the loop breaks (line 206) within the given number of
passes, after printing `replies`, and `none` when it is still going round. -/
def failedReads (user : User) : Nat → String → Option (List Reply)
  | 0, _ => none
  | passes + 1, secretKey =>
    if secretKey = "resend" then
      -- line 198 stores the code of the account in `secretKey`
      (failedReads user passes user.secretKey).map
        (fun replies => .Resent user.secretKey :: replies)
    else if secretKey ≠ user.secretKey then
      (failedReads user passes secretKey).map (fun replies => .InvalidCode :: replies)
    else some []

/-- The end of the 2FA loop when the input has ended with the variable
`secretKey` holding the given string: the loop breaks within two passes or
never does (`failedReads_never`, `failedReads_enough`). -/
def endOfInput (user : User) (secretKey : String) : LoginOutcome × List Reply :=
  match failedReads user 2 secretKey with
  | some replies => (.Authenticated user.email, replies)
  | none => (.NeverReturns, [])

/-- The 2FA loop (lines 192-208). `secretKey` is what the variable of that name
holds before the next read, the list holds the tokens still to be read from
`cin`, and `ended` tells whether the input ends after them (the next read
fails) or more can follow (the next read blocks). The result is the outcome and
the replies printed before the loop breaks, blocks, or starts to repeat the
same pass for ever. -/
def twoFactorLoop (user : User) (secretKey : String) :
    List String → Bool → LoginOutcome × List Reply
  | [], false => (.AwaitingCode, [])
  | [], true => endOfInput user secretKey
  | token :: rest, ended =>
    -- line 194 reads `token` into `secretKey`
    if token = "resend" then
      -- line 198 stores the code of the account in `secretKey`
      ((twoFactorLoop user user.secretKey rest ended).1,
        .Resent user.secretKey :: (twoFactorLoop user user.secretKey rest ended).2)
    else if token ≠ user.secretKey then
      ((twoFactorLoop user token rest ended).1,
        .InvalidCode :: (twoFactorLoop user token rest ended).2)
    else (.Authenticated user.email, [])

/-- State, outcome and 2FA replies of one `loginProcess`; when the login
never returns, the replies are those printed before it starts to repeat the
same pass for ever. -/
structure LoginResult where
  state : UserAuthentication
  outcome : LoginOutcome
  replies : List Reply

/-- Method `loginProcess` (lines 148-214). `now` is the clock read of line 168,
`lockNow` the one of `updateLastLoginAttempt` (line 43), `wall` the one of
`logEvent`, `codes` the tokens typed at the 2FA prompt, and `ended` whether
the input ends after them. The variable `secretKey` is empty when the 2FA loop
starts (line 149). -/
def loginProcess (hash : String → Nat) (auth : UserAuthentication)
    (email password : String) (codes : List String) (ended : Bool)
    (now lockNow : TimePoint) (wall : Int) : LoginResult :=
  match auth.userDatabase email with
  | none => ⟨auth, .UserNotFound, []⟩
  | some user =>
    if user.isLocked && decide (now - user.lastLoginAttempt < lockoutDuration) then
      ⟨auth, .AccountLocked, []⟩
    else
      -- lines 167-177: an expired lock is lifted and the counter reset
      let user1 : User := if user.isLocked then { user with isLocked := false } else user
      let attempts1 := if user.isLocked then assign auth.loginAttempts email 0
        else auth.loginAttempts
      if user1.passwordHash ≠ hashPassword hash password then
        -- lines 180-189
        let count := (attempts1 email).getD 0 + 1
        let attempts2 := assign attempts1 email count
        if count ≥ maxLoginAttempts then
          let user2 : User := { user1 with isLocked := true, lastLoginAttempt := lockNow }
          let auth2 : UserAuthentication :=
            { auth with userDatabase := assign auth.userDatabase email user2
                        loginAttempts := attempts2 }
          ⟨logEvent auth2 wall email "Account locked due to too many failed login attempts",
            .InvalidPassword, []⟩
        else
          ⟨{ auth with userDatabase := assign auth.userDatabase email user1
                       loginAttempts := attempts2 }, .InvalidPassword, []⟩
      else
        -- lines 192-214
        ⟨{ auth with userDatabase := assign auth.userDatabase email user1
                     loginAttempts := attempts1 },
          (twoFactorLoop user1 "" codes ended).1, (twoFactorLoop user1 "" codes ended).2⟩

/-- One menu choice of `start` (lines 97-103) with everything it reads. -/
inductive Op where
  | signUp (email password : String) (draw : Nat → Fin 36)
  | login (email password : String) (codes : List String) (ended : Bool)
      (now lockNow : TimePoint) (wall : Int)

/-- The state after one operation. -/
def step (hash : String → Nat) (auth : UserAuthentication) : Op → UserAuthentication
  | .signUp email password draw => (signUpProcess hash auth email password draw).state
  | .login email password codes ended now lockNow wall =>
    (loginProcess hash auth email password codes ended now lockNow wall).state

/-- The state after a sequence of operations, first operation first. -/
def run (hash : String → Nat) (auth : UserAuthentication) : List Op → UserAuthentication
  | [] => auth
  | op :: ops => run hash (step hash auth op) ops

/-- A state used as a concrete input: the single account "a@b.com", whose
password has `std::hash` value 9 and whose 2FA code is "000000", with the given
locked flag, lock timestamp and failed-attempt counter. -/
def sampleState (locked : Bool) (since : TimePoint) (count : Int) : UserAuthentication :=
  { userDatabase := assign (fun _ => none) "a@b.com" ⟨"a@b.com", "9", "000000", locked, since⟩
    loginAttempts := assign (fun _ => none) "a@b.com" count
    logFileOpen := true
    logFile := [] }

/-- The reply the 2FA loop prints for a token it does not accept
(lines 196-205). -/
def rejection (user : User) (token : String) : Reply :=
  if token = "resend" then .Resent user.secretKey else .InvalidCode

/-- The members of a `User` that no operation writes after construction:
e-mail, credentialHash and 2FA code. -/
def User.fixedPart (u : User) : String × String × String :=
  (u.email, u.passwordHash, u.secretKey)

/-- Every stored account is keyed by its own e-mail and holds a 2FA code made
by `generateSecretKey`. -/
def WellFormed (s : UserAuthentication) : Prop :=
  ∀ e u, s.userDatabase e = some u →
    u.email = e ∧ ∃ draw, u.secretKey = generateSecretKey draw

/-- The clock value that operation `op`, run on state `s`, writes into the lock
timestamp of the account `e` (line 184), if it does: `op` is a login on `e` that
fails password verification and leaves the account locked. -/
def lockWrite (hash : String → Nat) (s : UserAuthentication) (e : String) :
    Op → List TimePoint
  | .signUp _ _ _ => []
  | .login email pw codes ended now lockNow wall =>
    if email = e ∧
        (loginProcess hash s email pw codes ended now lockNow wall).outcome = .InvalidPassword ∧
        ((loginProcess hash s email pw codes ended now lockNow wall).state.userDatabase email).map
          User.isLocked = some true
    then [lockNow] else []

/-- The clock values written into the lock timestamp of account `e` while the
operations `ops` run from state `s`, oldest first. -/
def lockWrites (hash : String → Nat) (e : String) :
    UserAuthentication → List Op → List TimePoint
  | _, [] => []
  | s, op :: ops => lockWrite hash s e op ++ lockWrites hash e (step hash s op) ops

/-- The lockout invariant: an identity without account has no counter; the
counter of an account (0 while it does not exist) lies in 0..3 and is 3 exactly
when the account is locked. -/
def CounterInv (s : UserAuthentication) : Prop :=
  (∀ e, s.userDatabase e = none → s.loginAttempts e = none) ∧
  ∀ e u, s.userDatabase e = some u →
    0 ≤ (s.loginAttempts e).getD 0 ∧ (s.loginAttempts e).getD 0 ≤ 3 ∧
    (u.isLocked = true ↔ (s.loginAttempts e).getD 0 = 3)

/-- The timestamp invariant relative to the writes `w` made so far: the lock
timestamp of a locked account is the last one written for it. -/
def StampInv (s : UserAuthentication) (w : String → List TimePoint) : Prop :=
  ∀ e u, s.userDatabase e = some u → u.isLocked = true →
    (w e).getLast? = some u.lastLoginAttempt


/-- The shape "local@domain with a dot in the domain", in words: exactly one
'@'; before it a non-empty part of letters, digits and `. _ % + -`; after it a
part of letters, digits, '.' and '-' whose last '.' is preceded by at least one
character and followed by at least two letters and nothing else. -/
def emailShape (l : List Char) : Prop :=
  ∃ before after : List Char, l = before ++ '@' :: after ∧ '@' ∉ before ∧ '@' ∉ after ∧
    before ≠ [] ∧ (∀ c ∈ before, isLocalChar c = true) ∧
    (∀ c ∈ after, isDomainChar c = true) ∧
    ∃ host tld : List Char, after = host ++ '.' :: tld ∧ '.' ∉ tld ∧
      host ≠ [] ∧ 2 ≤ tld.length ∧ ∀ c ∈ tld, isLetter c = true


/-! ## Basic facts -/

@[simp] theorem assign_same {α : Type} (m : String → Option α) (k : String) (v : α) :
    assign m k v k = some v := by
  simp [assign]

theorem assign_other {α : Type} (m : String → Option α) (k k' : String) (v : α)
    (h : k' ≠ k) : assign m k v k' = m k' := by
  simp [assign, h]

theorem assign_assign {α : Type} (m : String → Option α) (k : String) (v w : α) :
    assign (assign m k v) k w = assign m k w := by
  funext k'
  by_cases h : k' = k <;> simp [assign, h]

theorem assign_self {α : Type} (m : String → Option α) (k : String) (v : α)
    (h : m k = some v) : assign m k v = m := by
  funext k'
  by_cases hk : k' = k
  · subst hk
    simp [assign, h]
  · simp [assign, hk]

@[simp] theorem logEvent_userDatabase (auth : UserAuthentication) (wall : Int)
    (email message : String) :
    (logEvent auth wall email message).userDatabase = auth.userDatabase := by
  unfold logEvent
  split <;> rfl

@[simp] theorem logEvent_loginAttempts (auth : UserAuthentication) (wall : Int)
    (email message : String) :
    (logEvent auth wall email message).loginAttempts = auth.loginAttempts := by
  unfold logEvent
  split <;> rfl

@[simp] theorem logEvent_logFileOpen (auth : UserAuthentication) (wall : Int)
    (email message : String) :
    (logEvent auth wall email message).logFileOpen = auth.logFileOpen := by
  unfold logEvent
  split <;> rfl

/-- The six characters of a generated key, in the order they are drawn. -/
theorem generateSecretKey_eq (draw : Nat → Fin 36) :
    generateSecretKey draw = String.mk [charAt (draw 0), charAt (draw 1), charAt (draw 2),
      charAt (draw 3), charAt (draw 4), charAt (draw 5)] := rfl

theorem charAt_ne_r : ∀ k : Fin 36, charAt k ≠ 'r' := by decide

/-- A generated key is never the reserved word of line 196. -/
theorem generateSecretKey_ne_resend (draw : Nat → Fin 36) :
    generateSecretKey draw ≠ "resend" := by
  intro h
  rw [generateSecretKey_eq] at h
  have h2 := congrArg String.data h
  have h3 : charAt (draw 0) = 'r' := by
    have := congrArg (fun l => l.head?) h2
    simpa using this
  exact charAt_ne_r _ h3

/-- Once the input has ended, a variable that is not the stored code, and is
"resend" only if the stored code is, keeps the loop going round whatever the
number of passes. -/
theorem failedReads_stuck (user : User) (n : Nat) :
    ∀ v : String, (v = "resend" → user.secretKey = "resend") →
      (v = "resend" ∨ v ≠ user.secretKey) → failedReads user n v = none := by
  induction n with
  | zero => intro v _ _; rfl
  | succ k ih =>
    intro v hfix hne
    unfold failedReads
    by_cases hr : v = "resend"
    · have hk : user.secretKey = "resend" := hfix hr
      simp only [hr, if_true]
      rw [ih user.secretKey (fun _ => hk) (Or.inl hk)]
      rfl
    · have hv : v ≠ user.secretKey := by
        rcases hne with h | h
        · exact absurd h hr
        · exact h
      simp only [hr, if_false, hv, ne_eq, not_false_eq_true, if_true]
      rw [ih v hfix hne]
      rfl

/-- Once the input has ended, a loop that has not broken after two passes
never breaks. -/
theorem failedReads_never (user : User) (v : String) (h : failedReads user 2 v = none)
    (n : Nat) : failedReads user n v = none := by
  by_cases hr : v = "resend"
  · by_cases hk : user.secretKey = "resend"
    · exact failedReads_stuck user n v (fun _ => hk) (Or.inl hr)
    · simp [failedReads, hr, hk] at h
  · by_cases hv : v = user.secretKey
    · subst hv
      simp [failedReads, hr] at h
    · exact failedReads_stuck user n v (fun h' => absurd h' hr) (Or.inr hv)

/-- Once the input has ended, a loop that breaks within two passes breaks with
the same replies under every larger number of passes. -/
theorem failedReads_enough (user : User) (v : String) (replies : List Reply)
    (h : failedReads user 2 v = some replies) (n : Nat) :
    failedReads user (n + 2) v = some replies := by
  by_cases hr : v = "resend"
  · by_cases hk : user.secretKey = "resend"
    · rw [failedReads_stuck user 2 v (fun _ => hk) (Or.inl hr)] at h
      cases h
    · simp only [failedReads, hr, hk, if_true, if_false, ne_eq, not_true_eq_false,
        Option.map_some'] at h ⊢
      exact h
  · by_cases hv : v = user.secretKey
    · subst hv
      simp only [failedReads, hr, if_false, ne_eq, not_true_eq_false] at h ⊢
      exact h
    · rw [failedReads_stuck user 2 v (fun h' => absurd h' hr) (Or.inr hv)] at h
      cases h

/-- At the end of the input the loop breaks exactly when the variable holds the
stored code and that code is not "resend". -/
theorem endOfInput_stored (user : User) (h : user.secretKey ≠ "resend") :
    endOfInput user user.secretKey = (.Authenticated user.email, []) := by
  simp [endOfInput, failedReads, h]

/-- At the end of the input with a variable that is neither "resend" nor the
stored code, the loop never returns. -/
theorem endOfInput_other (user : User) (v : String) (hr : v ≠ "resend")
    (hv : v ≠ user.secretKey) : endOfInput user v = (.NeverReturns, []) := by
  simp [endOfInput, failedReads, hr, hv]

/-- The 2FA loop accepts the first token equal to the stored code and prints
one reply for each token before it. -/
theorem twoFactorLoop_accept_first (user : User) (h : user.secretKey ≠ "resend")
    (pre rest : List String) (ended : Bool) (hpre : ∀ x ∈ pre, x ≠ user.secretKey) :
    ∀ v : String, twoFactorLoop user v (pre ++ user.secretKey :: rest) ended =
      (.Authenticated user.email, pre.map (rejection user)) := by
  induction pre with
  | nil => intro v; simp [twoFactorLoop, h]
  | cons x xs ih =>
    intro v
    have hx : x ≠ user.secretKey := hpre x (List.mem_cons_self _ _)
    have ih' := ih (fun y hy => hpre y (List.mem_cons_of_mem _ hy))
    by_cases hr : x = "resend" <;> simp [twoFactorLoop, hr, hx, ih', rejection]

/-- While more input can follow, the 2FA loop keeps waiting as long as no token
equals the stored code. -/
theorem twoFactorLoop_waiting (user : User) (codes : List String)
    (h : ∀ x ∈ codes, x ≠ user.secretKey) :
    ∀ v : String, twoFactorLoop user v codes false =
      (.AwaitingCode, codes.map (rejection user)) := by
  induction codes with
  | nil => intro v; simp [twoFactorLoop]
  | cons x xs ih =>
    intro v
    have hx : x ≠ user.secretKey := h x (List.mem_cons_self _ _)
    have ih' := ih (fun y hy => h y (List.mem_cons_of_mem _ hy))
    by_cases hr : x = "resend" <;> simp [twoFactorLoop, hr, hx, ih', rejection]

/-- When the input ends right after a "resend", the variable holds the stored
code (line 198), the read of line 194 fails, and the loop breaks: the login is
authenticated although no token typed equals the stored code. -/
theorem twoFactorLoop_resend_then_end (user : User) (h : user.secretKey ≠ "resend")
    (pre : List String) (hpre : ∀ x ∈ pre, x ≠ user.secretKey) :
    ∀ v : String, twoFactorLoop user v (pre ++ ["resend"]) true =
      (.Authenticated user.email, (pre ++ ["resend"]).map (rejection user)) := by
  induction pre with
  | nil => intro v; simp [twoFactorLoop, endOfInput_stored user h, rejection]
  | cons x xs ih =>
    intro v
    have hx : x ≠ user.secretKey := hpre x (List.mem_cons_self _ _)
    have ih' := ih (fun y hy => hpre y (List.mem_cons_of_mem _ hy))
    by_cases hr : x = "resend" <;> simp [twoFactorLoop, hr, hx, ih', rejection]

/-- Every code the loop prints once the input has ended is the stored code. -/
theorem failedReads_resent (user : User) (x : String) (n : Nat) :
    ∀ (v : String) (replies : List Reply), failedReads user n v = some replies →
      Reply.Resent x ∈ replies → x = user.secretKey := by
  induction n with
  | zero => intro v replies h; simp [failedReads] at h
  | succ k ih =>
    intro v replies h hx
    unfold failedReads at h
    split_ifs at h with h1 h2
    · cases hrec : failedReads user k user.secretKey with
      | none => simp [hrec] at h
      | some l =>
        simp only [hrec, Option.map_some', Option.some.injEq] at h
        subst h
        simp only [List.mem_cons, Reply.Resent.injEq] at hx
        rcases hx with hx | hx
        · exact hx
        · exact ih _ l hrec hx
    · cases hrec : failedReads user k v with
      | none => simp [hrec] at h
      | some l =>
        simp only [hrec, Option.map_some', Option.some.injEq] at h
        subst h
        simp only [List.mem_cons] at hx
        rcases hx with hx | hx
        · cases hx
        · exact ih _ l hrec hx
    · simp only [Option.some.injEq] at h
      subst h
      simp at hx

/-- Every resent code is the stored code. -/
theorem twoFactorLoop_resent (user : User) (codes : List String) (ended : Bool) (x : String) :
    ∀ v : String, Reply.Resent x ∈ (twoFactorLoop user v codes ended).2 →
      x = user.secretKey := by
  induction codes with
  | nil =>
    intro v h
    cases ended with
    | false => simp [twoFactorLoop] at h
    | true =>
      simp only [twoFactorLoop, endOfInput] at h
      cases hf : failedReads user 2 v with
      | none => simp [hf] at h
      | some l =>
        simp only [hf] at h
        exact failedReads_resent user x 2 v l hf h
  | cons y ys ih =>
    intro v h
    unfold twoFactorLoop at h
    split_ifs at h with h1 h2
    · simp only [List.mem_cons, Reply.Resent.injEq] at h
      rcases h with h | h
      · exact h
      · exact ih _ h
    · simp only [List.mem_cons] at h
      rcases h with h | h
      · cases h
      · exact ih _ h
    · simp at h

theorem failedReads_congr (u v : User) (h1 : v.secretKey = u.secretKey) (n : Nat) :
    ∀ x : String, failedReads v n x = failedReads u n x := by
  induction n with
  | zero => intro x; rfl
  | succ k ih => intro x; simp [failedReads, h1, ih]

/-- The 2FA loop reads only the e-mail and the 2FA code of the account. -/
theorem twoFactorLoop_congr (u v : User) (h1 : v.secretKey = u.secretKey)
    (h2 : v.email = u.email) (codes : List String) (ended : Bool) :
    ∀ x : String, twoFactorLoop v x codes ended = twoFactorLoop u x codes ended := by
  induction codes with
  | nil =>
    intro x
    cases ended with
    | false => rfl
    | true => simp [twoFactorLoop, endOfInput, failedReads_congr u v h1, h2]
  | cons y ys ih => intro x; simp [twoFactorLoop, h1, h2, ih]

/-- A login on an account that is unlocked, or whose lock has expired, with a
password that passes verification, ends as the 2FA loop ends. -/
theorem loginProcess_verified (hash : String → Nat) (s : UserAuthentication)
    (email pw : String) (codes : List String) (ended : Bool)
    (now lockNow : TimePoint) (wall : Int)
    (u : User) (hu : s.userDatabase email = some u)
    (hopen : u.isLocked = false ∨ 60 * ticksPerSecond ≤ now - u.lastLoginAttempt)
    (hpw : u.passwordHash = hashPassword hash pw) :
    (loginProcess hash s email pw codes ended now lockNow wall).outcome
      = (twoFactorLoop u "" codes ended).1 ∧
    (loginProcess hash s email pw codes ended now lockNow wall).replies
      = (twoFactorLoop u "" codes ended).2 := by
  cases hl : u.isLocked with
  | false => simp [loginProcess, hu, hl, hpw]
  | true =>
    have hn : ¬ now - u.lastLoginAttempt < lockoutDuration := by
      rcases hopen with h | h
      · rw [hl] at h
        cases h
      · simpa [lockoutDuration, lockoutDurationSeconds] using h
    simp only [loginProcess, hu, hl, hn, hpw, Bool.true_and, decide_False, Bool.false_eq_true,
      if_false, if_true, ne_eq, not_true_eq_false]
    have hc := twoFactorLoop_congr u
      ⟨u.email, hashPassword hash pw, u.secretKey, false, u.lastLoginAttempt⟩ rfl rfl
      codes ended ""
    exact ⟨congrArg Prod.fst hc, congrArg Prod.snd hc⟩

/-- Every code a login resends is the stored code of the account. -/
theorem loginProcess_resent (hash : String → Nat) (s : UserAuthentication)
    (email pw : String) (codes : List String) (ended : Bool)
    (now lockNow : TimePoint) (wall : Int)
    (u : User) (hu : s.userDatabase email = some u) (x : String)
    (h : Reply.Resent x ∈ (loginProcess hash s email pw codes ended now lockNow wall).replies) :
    x = u.secretKey := by
  unfold loginProcess at h
  simp only [hu] at h
  split_ifs at h <;> simp only [List.not_mem_nil] at h <;>
    exact (twoFactorLoop_resent _ _ _ _ _ h).trans rfl

/-- A login changes neither the e-mail, the credentialHash nor the 2FA code of
any account, and neither creates nor removes accounts. -/
theorem loginProcess_userDatabase (hash : String → Nat) (s : UserAuthentication)
    (email pw : String) (codes : List String) (ended : Bool)
    (now lockNow : TimePoint) (wall : Int)
    (e : String) :
    ((loginProcess hash s email pw codes ended now lockNow wall).state.userDatabase e).map
        User.fixedPart = (s.userDatabase e).map User.fixedPart := by
  unfold loginProcess
  cases hdb : s.userDatabase email with
  | none => simp
  | some user =>
    by_cases he : e = email
    · subst he
      simp only [hdb]
      split_ifs <;> simp [hdb, User.fixedPart]
    · simp only []
      split_ifs <;> simp [assign, he]

theorem init_wellFormed (b : Bool) : WellFormed (UserAuthentication.init b) := by
  intro e u h
  simp [UserAuthentication.init] at h

theorem signUpProcess_wellFormed (hash : String → Nat) (s : UserAuthentication)
    (email pw : String) (draw : Nat → Fin 36) (h : WellFormed s) :
    WellFormed (signUpProcess hash s email pw draw).state := by
  unfold signUpProcess
  split_ifs
  · exact h
  · exact h
  · exact h
  · intro e u hu
    by_cases he : e = email
    · subst he
      simp only [assign_same, Option.some.injEq] at hu
      subst hu
      exact ⟨rfl, draw, rfl⟩
    · simp only [assign_other _ _ _ _ he] at hu
      exact h e u hu

theorem loginProcess_wellFormed (hash : String → Nat) (s : UserAuthentication)
    (email pw : String) (codes : List String) (ended : Bool)
    (now lockNow : TimePoint) (wall : Int)
    (h : WellFormed s) :
    WellFormed (loginProcess hash s email pw codes ended now lockNow wall).state := by
  intro e u hu
  have hmap := loginProcess_userDatabase hash s email pw codes ended now lockNow wall e
  rw [hu] at hmap
  cases hs : s.userDatabase e with
  | none => simp [hs] at hmap
  | some v =>
    simp only [hs, Option.map_some', Option.some.injEq, User.fixedPart, Prod.mk.injEq] at hmap
    obtain ⟨h1, h2⟩ := h e v hs
    rw [hmap.1, hmap.2.2]
    exact ⟨h1, h2⟩

/-- No operation changes the e-mail, credentialHash or 2FA code of an account
that exists. -/
theorem step_fixedPart (hash : String → Nat) (s : UserAuthentication) (op : Op)
    (e : String) (t : String × String × String)
    (h : (s.userDatabase e).map User.fixedPart = some t) :
    ((step hash s op).userDatabase e).map User.fixedPart = some t := by
  cases op with
  | login email pw codes ended now lockNow wall =>
    simp only [step]
    rw [loginProcess_userDatabase]
    exact h
  | signUp email pw draw =>
    simp only [step, signUpProcess]
    split_ifs with hd hv hp
    · exact h
    · exact h
    · exact h
    · by_cases he : e = email
      · subst he
        cases hs : s.userDatabase e with
        | none => simp [hs] at h
        | some v => simp [hs] at hd
      · simpa [assign, he] using h

theorem run_fixedPart (hash : String → Nat) (ops : List Op) (e : String)
    (t : String × String × String) :
    ∀ s : UserAuthentication, (s.userDatabase e).map User.fixedPart = some t →
      ((run hash s ops).userDatabase e).map User.fixedPart = some t := by
  induction ops with
  | nil => intro s h; exact h
  | cons op ops ih => intro s h; exact ih _ (step_fixedPart hash s op e t h)

theorem step_wellFormed (hash : String → Nat) (s : UserAuthentication) (op : Op)
    (h : WellFormed s) : WellFormed (step hash s op) := by
  cases op with
  | signUp email pw draw => exact signUpProcess_wellFormed hash s email pw draw h
  | login email pw codes ended now lockNow wall =>
    exact loginProcess_wellFormed hash s email pw codes ended now lockNow wall h

theorem run_wellFormed (hash : String → Nat) (ops : List Op) :
    ∀ s : UserAuthentication, WellFormed s → WellFormed (run hash s ops) := by
  induction ops with
  | nil => intro s h; exact h
  | cons op ops ih => intro s h; exact ih _ (step_wellFormed hash s op h)

/-- A generated key has exactly six characters. -/
theorem generateSecretKey_length (draw : Nat → Fin 36) :
    (generateSecretKey draw).length = 6 := by
  rw [generateSecretKey_eq]
  rfl

theorem charAt_digit_or_upper :
    ∀ k : Fin 36, inRange '0' '9' (charAt k) = true ∨ inRange 'A' 'Z' (charAt k) = true := by
  decide

theorem charAt_onto_codes : ∀ n : Fin 91, (48 ≤ n.val ∧ n.val ≤ 57 ∨ 65 ≤ n.val ∧ n.val ≤ 90) →
    ∃ k : Fin 36, (charAt k).toNat = n.val := by
  decide

/-- Every digit and every uppercase letter is a character of the alphabet. -/
theorem exists_charAt (c : Char)
    (h : inRange '0' '9' c = true ∨ inRange 'A' 'Z' c = true) : ∃ k : Fin 36, charAt k = c := by
  have hc : (48 ≤ c.toNat ∧ c.toNat ≤ 57) ∨ (65 ≤ c.toNat ∧ c.toNat ≤ 90) := by
    rcases h with h | h
    · left
      simpa [inRange] using h
    · right
      simpa [inRange] using h
  have hlt : c.toNat < 91 := by omega
  obtain ⟨k, hk⟩ := charAt_onto_codes ⟨c.toNat, hlt⟩ hc
  refine ⟨k, ?_⟩
  rw [← Char.ofNat_toNat (charAt k), hk]
  exact Char.ofNat_toNat c


theorem logEvent_logFile (auth : UserAuthentication) (wall : Int) (email message : String)
    (h : auth.logFileOpen = true) :
    (logEvent auth wall email message).logFile =
      auth.logFile ++ [{ time := wall, email := email, message := message }] := by
  simp [logEvent, h]

/-- A login on one identity leaves the account and the counter of every other
identity as they were. -/
theorem loginProcess_other (hash : String → Nat) (s : UserAuthentication)
    (email pw : String) (codes : List String) (ended : Bool)
    (now lockNow : TimePoint) (wall : Int)
    (e : String) (he : e ≠ email) :
    (loginProcess hash s email pw codes ended now lockNow wall).state.userDatabase e
      = s.userDatabase e ∧
    (loginProcess hash s email pw codes ended now lockNow wall).state.loginAttempts e
      = s.loginAttempts e := by
  unfold loginProcess
  cases hdb : s.userDatabase email with
  | none => simp
  | some user =>
    simp only []
    split_ifs <;> simp [assign, he]


/-- The stored code, typed after any tokens, ends the 2FA loop with
Authenticated. -/
theorem twoFactorLoop_completes (user : User) (h : user.secretKey ≠ "resend")
    (pre rest : List String) (ended : Bool) :
    ∀ v : String, (twoFactorLoop user v (pre ++ user.secretKey :: rest) ended).1
      = .Authenticated user.email := by
  induction pre with
  | nil => intro v; simp [twoFactorLoop, h]
  | cons x xs ih =>
    intro v
    simp only [List.cons_append, twoFactorLoop]
    split_ifs <;> first | exact ih _ | rfl

theorem init_counterInv (b : Bool) : CounterInv (UserAuthentication.init b) := by
  constructor
  · intro e _
    rfl
  · intro e u h
    simp [UserAuthentication.init] at h

theorem signUpProcess_counterInv (hash : String → Nat) (s : UserAuthentication)
    (email pw : String) (draw : Nat → Fin 36) (h : CounterInv s) :
    CounterInv (signUpProcess hash s email pw draw).state := by
  unfold signUpProcess
  split_ifs with hd hv hp
  · exact h
  · exact h
  · exact h
  · have hnone : s.userDatabase email = none := by
      cases hs : s.userDatabase email with
      | none => rfl
      | some v => simp [hs] at hd
    constructor
    · intro e he
      by_cases hk : e = email
      · subst hk
        simp at he
      · simp only [assign_other _ _ _ _ hk] at he
        exact h.1 e he
    · intro e u hu
      by_cases hk : e = email
      · subst hk
        simp only [assign_same, Option.some.injEq] at hu
        subst hu
        simp [h.1 e hnone, User.new]
      · simp only [assign_other _ _ _ _ hk] at hu
        exact h.2 e u hu

theorem loginProcess_counterInv (hash : String → Nat) (s : UserAuthentication)
    (email pw : String) (codes : List String) (ended : Bool)
    (now lockNow : TimePoint) (wall : Int)
    (h : CounterInv s) :
    CounterInv (loginProcess hash s email pw codes ended now lockNow wall).state := by
  have hother := loginProcess_other hash s email pw codes ended now lockNow wall
  constructor
  · intro e he
    by_cases hk : e = email
    · subst hk
      have hmap := loginProcess_userDatabase hash s e pw codes ended now lockNow wall e
      rw [he] at hmap
      cases hs : s.userDatabase e with
      | none => simp [loginProcess, hs, h.1 e hs]
      | some v => simp [hs] at hmap
    · rw [(hother e hk).1] at he
      rw [(hother e hk).2]
      exact h.1 e he
  · intro e u hu
    by_cases hk : e = email
    · subst hk
      cases hs : s.userDatabase e with
      | none => simp [loginProcess, hs] at hu
      | some v =>
        obtain ⟨h0, h3, hiff⟩ := h.2 e v hs
        unfold loginProcess at hu ⊢
        simp only [hs] at hu ⊢
        cases hl : v.isLocked <;> simp only [hl] at hu hiff ⊢ <;> split_ifs at hu ⊢ <;>
          simp_all [maxLoginAttempts] <;> (try subst hu) <;> (try simp) <;> omega
    · rw [(hother e hk).1] at hu
      rw [(hother e hk).2]
      exact h.2 e u hu

theorem run_counterInv (hash : String → Nat) (ops : List Op) :
    ∀ s : UserAuthentication, CounterInv s → CounterInv (run hash s ops) := by
  induction ops with
  | nil => intro s h; exact h
  | cons op ops ih =>
    intro s h
    apply ih
    cases op with
    | signUp email pw draw => exact signUpProcess_counterInv hash s email pw draw h
    | login email pw codes ended now lockNow wall =>
      exact loginProcess_counterInv hash s email pw codes ended now lockNow wall h


theorem step_stampInv (hash : String → Nat) (s : UserAuthentication) (op : Op)
    (w : String → List TimePoint) (h : StampInv s w) :
    StampInv (step hash s op) (fun e => w e ++ lockWrite hash s e op) := by
  intro e u hu hlock
  cases op with
  | signUp email pw draw =>
    simp only [lockWrite, List.append_nil]
    simp only [step, signUpProcess] at hu
    split_ifs at hu with hd hv hp
    · exact h e u hu hlock
    · exact h e u hu hlock
    · exact h e u hu hlock
    · by_cases hk : e = email
      · subst hk
        simp only [assign_same, Option.some.injEq] at hu
        subst hu
        simp [User.new] at hlock
      · simp only [assign_other _ _ _ _ hk] at hu
        exact h e u hu hlock
  | login email pw codes ended now lockNow wall =>
    simp only [step] at hu
    by_cases hk : email = e
    · subst hk
      cases hs : s.userDatabase email with
      | none => simp [loginProcess, hs] at hu
      | some v =>
        have hv := h email v hs
        unfold lockWrite
        unfold loginProcess at hu ⊢
        simp only [hs] at hu ⊢
        cases hl : v.isLocked <;> simp only [hl] at hu hv ⊢ <;> split_ifs at hu ⊢ <;>
          simp_all <;> (try subst hu) <;> simp_all
    · have hk' : e ≠ email := fun h' => hk h'.symm
      rw [(loginProcess_other hash s email pw codes ended now lockNow wall e hk').1] at hu
      simp only [lockWrite, hk, false_and, if_false, List.append_nil]
      exact h e u hu hlock

theorem run_stampInv (hash : String → Nat) (ops : List Op) :
    ∀ (s : UserAuthentication) (w : String → List TimePoint), StampInv s w →
      StampInv (run hash s ops) (fun e => w e ++ lockWrites hash e s ops) := by
  induction ops with
  | nil =>
    intro s w h
    simpa [run, lockWrites] using h
  | cons op ops ih =>
    intro s w h
    have h2 := ih (step hash s op) _ (step_stampInv hash s op w h)
    simpa [run, lockWrites, List.append_assoc] using h2


/-! ### Correctness of the derivative matcher -/

theorem Regex.fullMatch_nothing (l : List Char) : Regex.nothing.fullMatch l = false := by
  induction l with
  | nil => rfl
  | cons c cs ih => simpa [Regex.fullMatch, Regex.deriv] using ih

theorem Regex.fullMatch_eps (l : List Char) : Regex.eps.fullMatch l = true ↔ l = [] := by
  cases l with
  | nil => simp [Regex.fullMatch, Regex.nullable]
  | cons c cs => simp [Regex.fullMatch, Regex.deriv, Regex.fullMatch_nothing]

theorem Regex.fullMatch_cls (p : Char → Bool) (l : List Char) :
    (Regex.cls p).fullMatch l = true ↔ ∃ c, l = [c] ∧ p c = true := by
  cases l with
  | nil => simp [Regex.fullMatch, Regex.nullable]
  | cons c cs =>
    by_cases hp : p c = true
    · simp only [Regex.fullMatch, Regex.deriv, hp, if_true, Regex.fullMatch_eps]
      constructor
      · intro h
        exact ⟨c, by rw [h], hp⟩
      · rintro ⟨a, h, _⟩
        simp only [List.cons.injEq] at h
        exact h.2
    · simp [Regex.fullMatch, Regex.deriv, hp, Regex.fullMatch_nothing]

theorem Regex.fullMatch_alt (r s : Regex) (l : List Char) :
    (Regex.alt r s).fullMatch l = (r.fullMatch l || s.fullMatch l) := by
  induction l generalizing r s with
  | nil => rfl
  | cons c cs ih => simp only [Regex.fullMatch, Regex.deriv, ih]

theorem Regex.fullMatch_seq (r s : Regex) (l : List Char) :
    (Regex.seq r s).fullMatch l = true ↔
      ∃ t u, l = t ++ u ∧ r.fullMatch t = true ∧ s.fullMatch u = true := by
  induction l generalizing r with
  | nil =>
    constructor
    · intro h
      simp only [Regex.fullMatch, Regex.nullable, Bool.and_eq_true] at h
      exact ⟨[], [], rfl, h.1, h.2⟩
    · rintro ⟨t, u, h, h1, h2⟩
      have ht : t = [] := by
        cases t with
        | nil => rfl
        | cons a t => simp at h
      subst ht
      have hu : u = [] := by simpa using h.symm
      subst hu
      simp only [Regex.fullMatch, Regex.nullable, Bool.and_eq_true]
      exact ⟨h1, h2⟩
  | cons c cs ih =>
    by_cases hn : r.nullable = true
    · simp only [Regex.fullMatch, Regex.deriv, hn, if_true, Regex.fullMatch_alt,
        Bool.or_eq_true, ih]
      constructor
      · rintro (⟨t, u, h, h1, h2⟩ | h)
        · exact ⟨c :: t, u, by simp [h], h1, h2⟩
        · exact ⟨[], c :: cs, rfl, hn, h⟩
      · rintro ⟨t, u, h, h1, h2⟩
        cases t with
        | nil =>
          right
          simp only [List.nil_append] at h
          subst h
          exact h2
        | cons a t =>
          left
          simp only [List.cons_append, List.cons.injEq] at h
          obtain ⟨rfl, rfl⟩ := h
          exact ⟨t, u, rfl, h1, h2⟩
    · rw [Bool.not_eq_true] at hn
      simp only [Regex.fullMatch, Regex.deriv, hn, Bool.false_eq_true, if_false, ih]
      constructor
      · rintro ⟨t, u, h, h1, h2⟩
        exact ⟨c :: t, u, by simp [h], h1, h2⟩
      · rintro ⟨t, u, h, h1, h2⟩
        cases t with
        | nil => simp [Regex.fullMatch, hn] at h1
        | cons a t =>
          simp only [List.cons_append, List.cons.injEq] at h
          obtain ⟨rfl, rfl⟩ := h
          exact ⟨t, u, rfl, h1, h2⟩

theorem Regex.fullMatch_star_cls (p : Char → Bool) (l : List Char) :
    (Regex.star (Regex.cls p)).fullMatch l = true ↔ ∀ c ∈ l, p c = true := by
  induction l with
  | nil => simp [Regex.fullMatch, Regex.nullable]
  | cons c cs ih =>
    have hstep : (Regex.star (Regex.cls p)).fullMatch (c :: cs) =
        (Regex.seq ((Regex.cls p).deriv c) (Regex.star (Regex.cls p))).fullMatch cs := rfl
    rw [hstep, Regex.fullMatch_seq]
    by_cases hp : p c = true
    · simp only [Regex.deriv, hp, if_true, Regex.fullMatch_eps, List.mem_cons, forall_eq_or_imp,
        true_and]
      constructor
      · rintro ⟨t, u, h, rfl, h2⟩
        simp only [List.nil_append] at h
        subst h
        exact ih.mp h2
      · intro h
        exact ⟨[], cs, rfl, rfl, ih.mpr h⟩
    · simp [Regex.deriv, hp, Regex.fullMatch_nothing]

theorem Regex.fullMatch_plus_cls (p : Char → Bool) (l : List Char) :
    (Regex.plus (Regex.cls p)).fullMatch l = true ↔ l ≠ [] ∧ ∀ c ∈ l, p c = true := by
  unfold Regex.plus
  rw [Regex.fullMatch_seq]
  constructor
  · rintro ⟨t, u, rfl, h1, h2⟩
    obtain ⟨c, rfl, hc⟩ := (Regex.fullMatch_cls p t).mp h1
    have hu := (Regex.fullMatch_star_cls p u).mp h2
    refine ⟨by simp, ?_⟩
    intro x hx
    simp only [List.singleton_append, List.mem_cons] at hx
    rcases hx with rfl | hx
    · exact hc
    · exact hu x hx
  · rintro ⟨hne, hall⟩
    cases l with
    | nil => exact absurd rfl hne
    | cons c cs =>
      refine ⟨[c], cs, rfl, (Regex.fullMatch_cls p [c]).mpr ⟨c, rfl, hall c (by simp)⟩, ?_⟩
      exact (Regex.fullMatch_star_cls p cs).mpr (fun x hx => hall x (by simp [hx]))

theorem Regex.fullMatch_atLeastTwo_cls (p : Char → Bool) (l : List Char) :
    (Regex.atLeastTwo (Regex.cls p)).fullMatch l = true ↔
      2 ≤ l.length ∧ ∀ c ∈ l, p c = true := by
  unfold Regex.atLeastTwo
  rw [Regex.fullMatch_seq]
  constructor
  · rintro ⟨t, u, rfl, h1, h2⟩
    obtain ⟨c, rfl, hc⟩ := (Regex.fullMatch_cls p t).mp h1
    obtain ⟨hne, hu⟩ := (Regex.fullMatch_plus_cls p u).mp h2
    refine ⟨?_, ?_⟩
    · cases u with
      | nil => exact absurd rfl hne
      | cons a u => simp
    · intro x hx
      simp only [List.singleton_append, List.mem_cons] at hx
      rcases hx with rfl | hx
      · exact hc
      · exact hu x hx
  · rintro ⟨hlen, hall⟩
    cases l with
    | nil => simp at hlen
    | cons c cs =>
      refine ⟨[c], cs, rfl, (Regex.fullMatch_cls p [c]).mpr ⟨c, rfl, hall c (by simp)⟩, ?_⟩
      refine (Regex.fullMatch_plus_cls p cs).mpr ⟨?_, fun x hx => hall x (by simp [hx])⟩
      intro h
      subst h
      simp at hlen

/-- What the e-mail pattern matches, part by part. -/
theorem emailPattern_fullMatch (l : List Char) :
    emailPattern.fullMatch l = true ↔
      ∃ loc dom tld : List Char, l = loc ++ '@' :: (dom ++ '.' :: tld) ∧
        (loc ≠ [] ∧ ∀ c ∈ loc, isLocalChar c = true) ∧
        (dom ≠ [] ∧ ∀ c ∈ dom, isDomainChar c = true) ∧
        (2 ≤ tld.length ∧ ∀ c ∈ tld, isLetter c = true) := by
  unfold emailPattern
  constructor
  · intro h
    obtain ⟨loc, r1, rfl, hloc, h⟩ := (Regex.fullMatch_seq _ _ _).mp h
    obtain ⟨a, r2, rfl, ha, h⟩ := (Regex.fullMatch_seq _ _ _).mp h
    obtain ⟨dom, r3, rfl, hdom, h⟩ := (Regex.fullMatch_seq _ _ _).mp h
    obtain ⟨d, tld, rfl, hd, htld⟩ := (Regex.fullMatch_seq _ _ _).mp h
    obtain ⟨ca, rfl, hca⟩ := (Regex.fullMatch_cls _ _).mp ha
    obtain ⟨cd, rfl, hcd⟩ := (Regex.fullMatch_cls _ _).mp hd
    have e1 : ca = '@' := by simpa using hca
    have e2 : cd = '.' := by simpa using hcd
    subst e1 e2
    exact ⟨loc, dom, tld, by simp, (Regex.fullMatch_plus_cls _ _).mp hloc,
      (Regex.fullMatch_plus_cls _ _).mp hdom, (Regex.fullMatch_atLeastTwo_cls _ _).mp htld⟩
  · rintro ⟨loc, dom, tld, rfl, hloc, hdom, htld⟩
    refine (Regex.fullMatch_seq _ _ _).mpr
      ⟨loc, _, rfl, (Regex.fullMatch_plus_cls _ _).mpr hloc, ?_⟩
    refine (Regex.fullMatch_seq _ _ _).mpr
      ⟨['@'], _, rfl, (Regex.fullMatch_cls _ _).mpr ⟨'@', rfl, rfl⟩, ?_⟩
    refine (Regex.fullMatch_seq _ _ _).mpr
      ⟨dom, _, rfl, (Regex.fullMatch_plus_cls _ _).mpr hdom, ?_⟩
    exact (Regex.fullMatch_seq _ _ _).mpr
      ⟨['.'], tld, rfl, (Regex.fullMatch_cls _ _).mpr ⟨'.', rfl, rfl⟩,
        (Regex.fullMatch_atLeastTwo_cls _ _).mpr htld⟩


/-! ## Claims -/

/-- C1: for a freshly registered account (sign-up just succeeded and the
identity has no failed-attempt counter yet), three login attempts whose password
fails verification (its hash differs from the stored credentialHash) are each
answered InvalidPassword and leave the account locked, with the lock timestamp
read at the third failure; a fourth attempt whose clock read is less than 60
seconds after that timestamp is rejected with AccountLocked for every supplied
password, the correct one included. -/
theorem C1_three_failures_then_locked (hash : String → Nat) (s0 : UserAuthentication)
    (email pw : String) (draw : Nat → Fin 36)
    (p1 p2 p3 : String) (c1 c2 c3 : List String) (e1 e2 e3 : Bool)
    (n1 n2 n3 l1 l2 l3 : TimePoint) (w1 w2 w3 : Int)
    (hsign : ∃ code, (signUpProcess hash s0 email pw draw).outcome = .Success code)
    (hfresh : s0.loginAttempts email = none)
    (h1 : hashPassword hash p1 ≠ hashPassword hash pw)
    (h2 : hashPassword hash p2 ≠ hashPassword hash pw)
    (h3 : hashPassword hash p3 ≠ hashPassword hash pw) :
    let s1 := (signUpProcess hash s0 email pw draw).state
    let r1 := loginProcess hash s1 email p1 c1 e1 n1 l1 w1
    let r2 := loginProcess hash r1.state email p2 c2 e2 n2 l2 w2
    let r3 := loginProcess hash r2.state email p3 c3 e3 n3 l3 w3
    r1.outcome = .InvalidPassword ∧ r2.outcome = .InvalidPassword ∧
    r3.outcome = .InvalidPassword ∧
    (∃ u, r3.state.userDatabase email = some u ∧ u.isLocked = true ∧
      u.lastLoginAttempt = l3) ∧
    ∀ (p4 : String) (c4 : List String) (e4 : Bool) (n4 l4 : TimePoint) (w4 : Int),
      n4 - l3 < 60 * ticksPerSecond →
      (loginProcess hash r3.state email p4 c4 e4 n4 l4 w4).outcome = .AccountLocked := by
  obtain ⟨code, hcode⟩ := hsign
  unfold signUpProcess at hcode ⊢
  split_ifs at hcode ⊢ with hd hv hp
  simp [loginProcess, User.new, Ne.symm h1, Ne.symm h2, Ne.symm h3, hfresh, maxLoginAttempts,
    lockoutDuration, lockoutDurationSeconds]
  intro p4 c4
  refine ⟨?_, ?_⟩ <;> intro n4 h4 <;> simp [h4]

/-- Witness for C1: sign-up of "a@b.com" on the initial state, three logins
with "wrong". -/
theorem C1_three_failures_then_locked_witness :
    (loginProcess String.length
      (loginProcess String.length
        (loginProcess String.length
          (loginProcess String.length
            (signUpProcess String.length (UserAuthentication.init true)
              "a@b.com" "password1" (fun _ => 0)).state
            "a@b.com" "wrong" [] false 10 11 12).state
          "a@b.com" "wrong" [] false 20 21 22).state
        "a@b.com" "wrong" [] false 30 31 32).state
      "a@b.com" "password1" ["000000"] false (31 + 59 * ticksPerSecond) 0 0).outcome
      = .AccountLocked :=
  (C1_three_failures_then_locked String.length (UserAuthentication.init true)
    "a@b.com" "password1" (fun _ => 0) "wrong" "wrong" "wrong" [] [] [] false false false
    10 20 30 11 21 31 12 22 32 ⟨"000000", by decide⟩ rfl (by decide) (by decide)
    (by decide)).2.2.2.2 "password1" ["000000"] false (31 + 59 * ticksPerSecond) 0 0 (by decide)

/-- C2 (the code departs from the claim): on a freshly registered account the
sequence fail, fail, success, fail ends with the failed-attempt counter at 3 and
the account locked. The successful login in third position (correct password,
then the stored 2FA code) is granted Authenticated but leaves the counter at 2:
`loginProcess` resets the counter only when it lifts an expired lock (line 175),
never on a successful password verification. -/
theorem C2_success_keeps_counter (hash : String → Nat) (s0 : UserAuthentication)
    (email pw : String) (draw : Nat → Fin 36)
    (p1 p2 p4 : String) (c1 c2 c4 : List String) (e1 e2 e3 e4 : Bool)
    (n1 n2 n3 n4 l1 l2 l3 l4 : TimePoint) (w1 w2 w3 w4 : Int)
    (hsign : ∃ code, (signUpProcess hash s0 email pw draw).outcome = .Success code)
    (hfresh : s0.loginAttempts email = none)
    (h1 : hashPassword hash p1 ≠ hashPassword hash pw)
    (h2 : hashPassword hash p2 ≠ hashPassword hash pw)
    (h4 : hashPassword hash p4 ≠ hashPassword hash pw) :
    let s1 := (signUpProcess hash s0 email pw draw).state
    let r1 := loginProcess hash s1 email p1 c1 e1 n1 l1 w1
    let r2 := loginProcess hash r1.state email p2 c2 e2 n2 l2 w2
    let r3 := loginProcess hash r2.state email pw [generateSecretKey draw] e3 n3 l3 w3
    let r4 := loginProcess hash r3.state email p4 c4 e4 n4 l4 w4
    r2.state.loginAttempts email = some 2 ∧
    r3.outcome = .Authenticated email ∧
    r3.state.loginAttempts email = some 2 ∧
    r4.outcome = .InvalidPassword ∧
    r4.state.loginAttempts email = some 3 ∧
    ∃ u, r4.state.userDatabase email = some u ∧ u.isLocked = true := by
  obtain ⟨code, hcode⟩ := hsign
  unfold signUpProcess at hcode ⊢
  split_ifs at hcode ⊢ with hd hv hp
  have hk := generateSecretKey_ne_resend draw
  simp [loginProcess, User.new, Ne.symm h1, Ne.symm h2, Ne.symm h4, hfresh, maxLoginAttempts,
    twoFactorLoop, hk]

/-- Witness for C2: "a@b.com" signs up with "password1" and code "000000";
wrong, wrong, right (with the code), wrong. -/
theorem C2_success_keeps_counter_witness :
    (loginProcess String.length
      (loginProcess String.length
        (loginProcess String.length
          (loginProcess String.length
            (signUpProcess String.length (UserAuthentication.init true)
              "a@b.com" "password1" (fun _ => 0)).state
            "a@b.com" "wrong" [] false 10 11 12).state
          "a@b.com" "wrong" [] false 20 21 22).state
        "a@b.com" "password1" [generateSecretKey (fun _ => 0)] false 30 31 32).state
      "a@b.com" "wrong" [] false 40 41 42).state.loginAttempts "a@b.com" = some 3 ∧
    ∃ u, (loginProcess String.length
      (loginProcess String.length
        (loginProcess String.length
          (loginProcess String.length
            (signUpProcess String.length (UserAuthentication.init true)
              "a@b.com" "password1" (fun _ => 0)).state
            "a@b.com" "wrong" [] false 10 11 12).state
          "a@b.com" "wrong" [] false 20 21 22).state
        "a@b.com" "password1" [generateSecretKey (fun _ => 0)] false 30 31 32).state
      "a@b.com" "wrong" [] false 40 41 42).state.userDatabase "a@b.com" = some u ∧
      u.isLocked = true :=
  (C2_success_keeps_counter String.length (UserAuthentication.init true)
    "a@b.com" "password1" (fun _ => 0) "wrong" "wrong" "wrong" [] [] [] false false false false
    10 20 30 40 11 21 31 41 12 22 32 42 ⟨"000000", by decide⟩ rfl (by decide) (by decide)
    (by decide)).2.2.2.2

/-- C3: on a locked account, a login attempt whose clock read is less than 60
seconds after the lock timestamp is rejected with AccountLocked whatever the
password, prints no 2FA reply, and leaves the whole state unchanged: in
particular the locked flag, the lock timestamp and the failed-attempt counter
of the account. -/
theorem C3_locked_attempt_rejected (hash : String → Nat) (s : UserAuthentication)
    (email pw : String) (codes : List String) (ended : Bool)
    (now lockNow : TimePoint) (wall : Int)
    (u : User) (hu : s.userDatabase email = some u) (hl : u.isLocked = true)
    (ht : now - u.lastLoginAttempt < 60 * ticksPerSecond) :
    let r := loginProcess hash s email pw codes ended now lockNow wall
    r.outcome = .AccountLocked ∧ r.replies = [] ∧ r.state = s ∧
    r.state.userDatabase email = some u ∧
    r.state.loginAttempts email = s.loginAttempts email := by
  simp [loginProcess, hu, hl, lockoutDuration, lockoutDurationSeconds, ht]

/-- Witness for C3: an account locked at tick 5, with counter 3, tried again
59 seconds later with its correct password. -/
theorem C3_locked_attempt_rejected_witness :
    (loginProcess String.length
      (sampleState true 5 3)
      "a@b.com" "password1" ["000000"] false (5 + 59 * ticksPerSecond) 0 0).outcome
      = .AccountLocked :=
  (C3_locked_attempt_rejected String.length (sampleState true 5 3) "a@b.com" "password1"
    ["000000"] false (5 + 59 * ticksPerSecond) 0 0 ⟨"a@b.com", "9", "000000", true, 5⟩ rfl rfl (by decide)).1

/-- C4: on a locked account, a login attempt whose clock read is 60 seconds or
more after the lock timestamp (exactly 60 seconds included) gives the same
result as the same attempt on the state in which the account is already
unlocked and its counter is 0. With a password that passes verification the
2FA loop runs on the unlocked account, the account is unlocked and the counter
is 0; with one that fails, the outcome is InvalidPassword, the counter is 1 and
the account is unlocked. -/
theorem C4_expired_lock_lifted (hash : String → Nat) (s : UserAuthentication)
    (email pw : String) (codes : List String) (ended : Bool)
    (now lockNow : TimePoint) (wall : Int)
    (u : User) (hu : s.userDatabase email = some u) (hl : u.isLocked = true)
    (ht : 60 * ticksPerSecond ≤ now - u.lastLoginAttempt) :
    let unlocked : User := { u with isLocked := false }
    let s' : UserAuthentication :=
      { s with userDatabase := assign s.userDatabase email unlocked
               loginAttempts := assign s.loginAttempts email 0 }
    let r := loginProcess hash s email pw codes ended now lockNow wall
    r = loginProcess hash s' email pw codes ended now lockNow wall ∧
    (u.passwordHash = hashPassword hash pw →
      r.outcome = (twoFactorLoop unlocked "" codes ended).1 ∧
      r.replies = (twoFactorLoop unlocked "" codes ended).2 ∧
      r.state = s') ∧
    (u.passwordHash ≠ hashPassword hash pw →
      r.outcome = .InvalidPassword ∧
      r.state.loginAttempts email = some 1 ∧
      r.state.userDatabase email = some unlocked) := by
  have ht' : ¬ now - u.lastLoginAttempt < 60 * ticksPerSecond := not_lt.mpr ht
  refine ⟨?_, ?_, ?_⟩
  · by_cases hp : u.passwordHash = hashPassword hash pw <;>
      simp [loginProcess, hu, hl, lockoutDuration, lockoutDurationSeconds, ht', hp,
        assign_assign, maxLoginAttempts]
  · intro hp
    simp [loginProcess, hu, hl, lockoutDuration, lockoutDurationSeconds, ht', hp]
  · intro hp
    simp [loginProcess, hu, hl, lockoutDuration, lockoutDurationSeconds, ht', hp,
      maxLoginAttempts]

/-- Witness for C4: an account locked at tick 5, tried again exactly 60 seconds
later with a wrong password. -/
theorem C4_expired_lock_lifted_witness :
    (loginProcess String.length
      (sampleState true 5 3)
      "a@b.com" "wrong" [] false (5 + 60 * ticksPerSecond) 7 0).state.loginAttempts "a@b.com"
      = some 1 :=
  ((C4_expired_lock_lifted String.length (sampleState true 5 3) "a@b.com" "wrong" [] false
    (5 + 60 * ticksPerSecond) 7 0 ⟨"a@b.com", "9", "000000", true, 5⟩ rfl rfl
    (by decide)).2.2 (by decide)).2.1

/-- C5: on an unlocked account whose failed-attempt counter is `c` (0 when the
counter does not exist yet), a login attempt whose password hash differs from
the stored credentialHash returns InvalidPassword and sets the counter to
`c + 1`; if `c + 1 < 3` the account record is unchanged (still unlocked, same
lock timestamp); if `c + 1 ≥ 3` the account becomes locked and its lock
timestamp is the clock value read at that moment. -/
theorem C5_failed_verification (hash : String → Nat) (s : UserAuthentication)
    (email pw : String) (codes : List String) (ended : Bool)
    (now lockNow : TimePoint) (wall : Int)
    (u : User) (c : Int) (hu : s.userDatabase email = some u) (hl : u.isLocked = false)
    (hc : (s.loginAttempts email).getD 0 = c)
    (hp : hashPassword hash pw ≠ u.passwordHash) :
    let r := loginProcess hash s email pw codes ended now lockNow wall
    r.outcome = .InvalidPassword ∧
    r.state.loginAttempts email = some (c + 1) ∧
    (c + 1 < 3 → r.state.userDatabase email = some u) ∧
    (c + 1 ≥ 3 → r.state.userDatabase email =
      some { u with isLocked := true, lastLoginAttempt := lockNow }) := by
  have hp' : ¬ u.passwordHash = hashPassword hash pw := fun h => hp h.symm
  by_cases h3 : c + 1 < 3
  · have h3' : ¬ 3 ≤ c + 1 := not_le.mpr h3
    simp [loginProcess, hu, hl, hp', hc, maxLoginAttempts, h3, h3']
  · have h3' : 3 ≤ c + 1 := not_lt.mp h3
    simp [loginProcess, hu, hl, hp', hc, maxLoginAttempts, h3, h3']

/-- Witness for C5: the third failure on an unlocked account with counter 2
locks it at the clock value read. -/
theorem C5_failed_verification_witness :
    (loginProcess String.length
      (sampleState false 0 2)
      "a@b.com" "wrong" [] false 40 41 42).state.userDatabase "a@b.com"
      = some ⟨"a@b.com", "9", "000000", true, 41⟩ :=
  (C5_failed_verification String.length (sampleState false 0 2) "a@b.com" "wrong" [] false
    40 41 42
    ⟨"a@b.com", "9", "000000", false, 0⟩ 2 rfl rfl rfl (by decide)).2.2.2 (by decide)

/-- C6: on a store in which the identity is already registered, signUp fails
with DuplicateIdentity whatever the password (its length included) and whatever
the random draws, and the store is unchanged: the identity still maps to the
same single account, so to the credentialHash and 2FA code it had. -/
theorem C6_duplicate_identity (hash : String → Nat) (s : UserAuthentication)
    (email pw : String) (draw : Nat → Fin 36) (u : User)
    (hu : s.userDatabase email = some u) :
    let r := signUpProcess hash s email pw draw
    r.outcome = .DuplicateIdentity ∧ r.state = s ∧
    r.state.userDatabase email = some u := by
  simp [signUpProcess, hu]

/-- Witness for C6: "a@b.com" signs up twice, the second time with a short
password and other draws. -/
theorem C6_duplicate_identity_witness :
    (signUpProcess String.length
      (signUpProcess String.length (UserAuthentication.init true)
        "a@b.com" "password1" (fun _ => 0)).state
      "a@b.com" "pw" (fun _ => 1)).outcome = .DuplicateIdentity :=
  (C6_duplicate_identity String.length
    (signUpProcess String.length (UserAuthentication.init true)
      "a@b.com" "password1" (fun _ => 0)).state
    "a@b.com" "pw" (fun _ => 1) ⟨"a@b.com", "9", "000000", false, 0⟩ (by decide)).1

/-- C7 as stated fails: with the 5-character password "short" and the identity
"not-an-email", which is not registered and is rejected by the email validator,
signUp fails with InvalidIdentity, not with WeakPassword. -/
theorem C7_short_password_other_failure :
    "short".length < 8 ∧
    (signUpProcess String.length (UserAuthentication.init true)
      "not-an-email" "short" (fun _ => 0)).outcome = .InvalidIdentity ∧
    (signUpProcess String.length (UserAuthentication.init true)
      "not-an-email" "short" (fun _ => 0)).outcome ≠ .WeakPassword := by
  decide

/-- C7 (amended): for every identity and every password of length less than
8, signUp fails and the store is unchanged; the failure is WeakPassword when the
identity is not yet registered and passes the email validator (otherwise
DuplicateIdentity, respectively InvalidIdentity, is reported first); and
whatever the inputs, signUp fails with WeakPassword only when the password
length is less than 8. -/
theorem C7_weak_password (hash : String → Nat) (s : UserAuthentication)
    (email pw : String) (draw : Nat → Fin 36) (hlen : pw.length < 8) :
    let r := signUpProcess hash s email pw draw
    r.state = s ∧
    (r.outcome = .DuplicateIdentity ∨ r.outcome = .InvalidIdentity ∨
      r.outcome = .WeakPassword) ∧
    (r.outcome = .DuplicateIdentity ↔ (s.userDatabase email).isSome = true) ∧
    (r.outcome = .InvalidIdentity ↔
      s.userDatabase email = none ∧ isValidEmail email = false) ∧
    (r.outcome = .WeakPassword ↔
      s.userDatabase email = none ∧ isValidEmail email = true) ∧
    ∀ (s' : UserAuthentication) (email' pw' : String) (draw' : Nat → Fin 36),
      (signUpProcess hash s' email' pw' draw').outcome = .WeakPassword → pw'.length < 8 := by
  have hlen' : ¬ 8 ≤ pw.length := not_le.mpr hlen
  refine ⟨?_, ?_, ?_, ?_, ?_, ?_⟩
  · unfold signUpProcess
    split_ifs <;> simp_all [isValidPassword]
  · unfold signUpProcess
    split_ifs <;> simp_all [isValidPassword]
  · unfold signUpProcess
    split_ifs <;> simp_all [isValidPassword]
  · cases hdb : s.userDatabase email <;> cases hv : isValidEmail email <;>
      simp [signUpProcess, hdb, hv, isValidPassword, hlen']
  · cases hdb : s.userDatabase email <;> cases hv : isValidEmail email <;>
      simp [signUpProcess, hdb, hv, isValidPassword, hlen']
  · intro s' email' pw' draw'
    unfold signUpProcess
    split_ifs <;> simp_all [isValidPassword]

/-- Witness for C7: "a@b.com" with the 5-character password "short" on the
initial state. -/
theorem C7_weak_password_witness :
    (signUpProcess String.length (UserAuthentication.init true)
      "a@b.com" "short" (fun _ => 0)).outcome = .WeakPassword :=
  (C7_weak_password String.length (UserAuthentication.init true)
    "a@b.com" "short" (fun _ => 0) (by decide)).2.2.2.2.1.mpr ⟨rfl, by decide⟩

/-- C8: signUp succeeds exactly when the identity is not yet registered, it
passes the email validator and the password has length at least 8. On success
the identity, absent before, maps to a new unlocked account whose e-mail is the
identity, whose credentialHash is the hash of the supplied password and whose
stored 2FA code is the code returned; every other identity maps to what it
mapped to before, and the counters and the log are unchanged. On every failure
the state is unchanged. -/
theorem C8_sign_up (hash : String → Nat) (s : UserAuthentication)
    (email pw : String) (draw : Nat → Fin 36) :
    let r := signUpProcess hash s email pw draw
    ((∃ code, r.outcome = .Success code) ↔
      (s.userDatabase email = none ∧ isValidEmail email = true ∧ 8 ≤ pw.length)) ∧
    (∀ code, r.outcome = .Success code →
      s.userDatabase email = none ∧
      r.state.userDatabase email =
        some { email := email, passwordHash := hashPassword hash pw, secretKey := code,
               isLocked := false, lastLoginAttempt := 0 } ∧
      code = generateSecretKey draw ∧
      (∀ other, other ≠ email → r.state.userDatabase other = s.userDatabase other) ∧
      r.state.loginAttempts = s.loginAttempts ∧
      r.state.logFileOpen = s.logFileOpen ∧ r.state.logFile = s.logFile) ∧
    ((¬ ∃ code, r.outcome = .Success code) → r.state = s) := by
  unfold signUpProcess
  split_ifs with hd hv hp
  · cases hdb : s.userDatabase email <;> simp_all
  · simp_all
  · simp_all [isValidPassword]
  · refine ⟨?_, ?_, ?_⟩
    · simp_all [isValidPassword]
    · intro code hcode
      simp only [SignUpOutcome.Success.injEq] at hcode
      subst hcode
      refine ⟨by simpa using hd, by simp [User.new], by simp [User.new], ?_, rfl, rfl, rfl⟩
      intro other hne
      simp [assign, hne]
    · intro h
      exact absurd ⟨_, rfl⟩ h

/-- Witness for C8: "a@b.com" signs up with "password1" on the initial state
and the draws all 0, and is stored with the code "000000" it is shown. -/
theorem C8_sign_up_witness :
    (signUpProcess String.length (UserAuthentication.init true)
      "a@b.com" "password1" (fun _ => 0)).state.userDatabase "a@b.com" =
      some ⟨"a@b.com", hashPassword String.length "password1", "000000", false, 0⟩ :=
  ((C8_sign_up String.length (UserAuthentication.init true)
    "a@b.com" "password1" (fun _ => 0)).2.1 "000000" (by decide)).2.1

/-- C9 (the code departs from the claim): Authenticated is not granted only at
a token equal to the stored 2FA code. In every state reached from the initial
one, when a login reaches the 2FA stage and the input ends right after a
"resend" token, the login is Authenticated for the identity although no token
typed equals the stored code: line 198 has stored the code of the account in
the variable `secretKey`, the read of line 194 fails at the end of the input
and leaves it there, so neither test of lines 196 and 203 holds and the loop
breaks. With the same tokens and more input to follow, the loop waits and
grants nothing. -/
theorem C9_resend_then_end_authenticates (hash : String → Nat) (b : Bool) (ops : List Op)
    (email pw : String) (now lockNow : TimePoint) (wall : Int) (u : User)
    (pre : List String)
    (hu : (run hash (UserAuthentication.init b) ops).userDatabase email = some u)
    (hopen : u.isLocked = false ∨ 60 * ticksPerSecond ≤ now - u.lastLoginAttempt)
    (hpw : u.passwordHash = hashPassword hash pw)
    (hpre : ∀ x ∈ pre, x ≠ u.secretKey) :
    let s := run hash (UserAuthentication.init b) ops
    (∀ x ∈ pre ++ ["resend"], x ≠ u.secretKey) ∧
    (loginProcess hash s email pw (pre ++ ["resend"]) true now lockNow wall).outcome
      = .Authenticated email ∧
    (loginProcess hash s email pw (pre ++ ["resend"]) true now lockNow wall).replies
      = (pre ++ ["resend"]).map
          (fun x => if x = "resend" then .Resent u.secretKey else .InvalidCode) ∧
    (loginProcess hash s email pw (pre ++ ["resend"]) false now lockNow wall).outcome
      = .AwaitingCode := by
  intro s
  obtain ⟨hemail, d, hd⟩ := run_wellFormed hash ops _ (init_wellFormed b) email u hu
  have hne : u.secretKey ≠ "resend" := hd ▸ generateSecretKey_ne_resend d
  have hall : ∀ x ∈ pre ++ ["resend"], x ≠ u.secretKey := by
    intro x hx
    simp only [List.mem_append, List.mem_singleton] at hx
    rcases hx with hx | hx
    · exact hpre x hx
    · rw [hx]
      exact fun h => hne h.symm
  have hrej : (fun x => if x = "resend" then Reply.Resent u.secretKey else Reply.InvalidCode)
      = rejection u := rfl
  have hlogin := fun codes ended =>
    loginProcess_verified hash s email pw codes ended now lockNow wall u hu hopen hpw
  refine ⟨hall, ?_, ?_, ?_⟩
  · rw [(hlogin _ _).1, twoFactorLoop_resend_then_end u hne pre hpre, hemail]
  · rw [(hlogin _ _).2, twoFactorLoop_resend_then_end u hne pre hpre, hrej]
  · rw [(hlogin _ _).1, twoFactorLoop_waiting u _ hall]

/-- Witness for C9: after "a@b.com" signed up with code "000000", a login with
the right password whose 2FA input is the single token "resend" followed by the
end of the input is authenticated. -/
theorem C9_resend_then_end_authenticates_witness :
    (loginProcess String.length
      (run String.length (UserAuthentication.init true)
        [Op.signUp "a@b.com" "password1" (fun _ => 0)])
      "a@b.com" "password1" ([] ++ ["resend"]) true 1 2 3).outcome
      = .Authenticated "a@b.com" :=
  (C9_resend_then_end_authenticates String.length true
    [Op.signUp "a@b.com" "password1" (fun _ => 0)]
    "a@b.com" "password1" 1 2 3 ⟨"a@b.com", "9", "000000", false, 0⟩ []
    (by decide) (Or.inl rfl) (by decide) (by decide)).2.1

/-- C10 (the code departs from the claim): a resend can grant authentication.
Once signUp has returned a 2FA code for an account, after every sequence of
signUp and login operations the code stored for that account is still that
code, and it still is after one more login with any password and any tokens;
every code such a login resends is that code. But a login with the password of
the account that reaches the 2FA stage, types nothing but "resend", at least
once, and then meets the end of the input, is Authenticated: the last resend
has left the stored code in the variable `secretKey` (line 198) and the failed
read of line 194 does not change it. -/
theorem C10_resend_then_end_grants (hash : String → Nat) (s0 : UserAuthentication)
    (email pw : String) (draw : Nat → Fin 36) (code : String)
    (hsign : (signUpProcess hash s0 email pw draw).outcome = .Success code)
    (ops : List Op) (pw' : String) (codes : List String) (ended : Bool)
    (now lockNow : TimePoint) (wall : Int) :
    let s := run hash (signUpProcess hash s0 email pw draw).state ops
    let r := loginProcess hash s email pw' codes ended now lockNow wall
    (∃ u, s.userDatabase email = some u ∧ u.secretKey = code) ∧
    (∃ u, r.state.userDatabase email = some u ∧ u.secretKey = code) ∧
    (∀ x, Reply.Resent x ∈ r.replies → x = code) ∧
    ∀ (n : Nat) (u : User), s.userDatabase email = some u →
      (u.isLocked = false ∨ 60 * ticksPerSecond ≤ now - u.lastLoginAttempt) →
      (loginProcess hash s email pw (List.replicate (n + 1) "resend") true
        now lockNow wall).outcome = .Authenticated email ∧
      (loginProcess hash s email pw (List.replicate (n + 1) "resend") true
        now lockNow wall).replies = List.replicate (n + 1) (.Resent code) := by
  intro s r
  have hcode : code = generateSecretKey draw := by
    unfold signUpProcess at hsign
    split_ifs at hsign
    simp only [SignUpOutcome.Success.injEq] at hsign
    exact hsign.symm
  have h1 : ((signUpProcess hash s0 email pw draw).state.userDatabase email).map User.fixedPart
      = some (email, hashPassword hash pw, code) := by
    unfold signUpProcess at hsign ⊢
    split_ifs at hsign ⊢
    simp only [SignUpOutcome.Success.injEq] at hsign
    simp [User.fixedPart, ← hsign, User.new]
  have h2 : (s.userDatabase email).map User.fixedPart
      = some (email, hashPassword hash pw, code) := run_fixedPart hash ops email _ _ h1
  have h3 : (r.state.userDatabase email).map User.fixedPart
      = some (email, hashPassword hash pw, code) := by
    rw [loginProcess_userDatabase]
    exact h2
  obtain ⟨u, hu, hk⟩ : ∃ u, s.userDatabase email = some u ∧ u.secretKey = code := by
    cases hs : s.userDatabase email with
    | none => simp [hs] at h2
    | some v =>
      simp only [hs, Option.map_some', Option.some.injEq, User.fixedPart, Prod.mk.injEq] at h2
      exact ⟨v, rfl, h2.2.2⟩
  refine ⟨⟨u, hu, hk⟩, ?_, ?_, ?_⟩
  · cases hs : r.state.userDatabase email with
    | none => simp [hs] at h3
    | some v =>
      simp only [hs, Option.map_some', Option.some.injEq, User.fixedPart, Prod.mk.injEq] at h3
      exact ⟨v, rfl, h3.2.2⟩
  · intro x hx
    rw [← hk]
    exact loginProcess_resent hash s email pw' codes ended now lockNow wall u hu x hx
  · intro n v hv hopen
    rw [hu] at hv
    simp only [Option.some.injEq] at hv
    subst hv
    simp only [hu, Option.map_some', Option.some.injEq, User.fixedPart, Prod.mk.injEq] at h2
    have hne : u.secretKey ≠ "resend" := by
      rw [hk, hcode]
      exact generateSecretKey_ne_resend draw
    have hlogin := loginProcess_verified hash s email pw (List.replicate (n + 1) "resend") true
      now lockNow wall u hu hopen h2.2.1
    have hsplit : List.replicate (n + 1) "resend" = List.replicate n "resend" ++ ["resend"] :=
      List.replicate_succ' n "resend"
    have hpre : ∀ x ∈ List.replicate n "resend", x ≠ u.secretKey := by
      intro x hx
      rw [List.eq_of_mem_replicate hx]
      exact fun h => hne h.symm
    have hloop := twoFactorLoop_resend_then_end u hne (List.replicate n "resend") hpre ""
    rw [← hsplit] at hloop
    rw [hlogin.1, hlogin.2, hloop, h2.1, ← hk]
    refine ⟨rfl, ?_⟩
    simp [rejection, List.map_replicate]

/-- Witness for C10: "a@b.com" is shown "000000" at sign-up; after a failed
login and a second sign-up attempt, a login with the right password types
"resend" twice, the input ends, and the login is authenticated. -/
theorem C10_resend_then_end_grants_witness :
    (loginProcess String.length
      (run String.length
        (signUpProcess String.length (UserAuthentication.init true)
          "a@b.com" "password1" (fun _ => 0)).state
        [Op.login "a@b.com" "wrong" [] false 1 2 3,
          Op.signUp "a@b.com" "password2" (fun _ => 1)])
      "a@b.com" "password1" (List.replicate (1 + 1) "resend") true 4 5 6).outcome
      = .Authenticated "a@b.com" :=
  ((C10_resend_then_end_grants String.length (UserAuthentication.init true)
    "a@b.com" "password1" (fun _ => 0) "000000" (by decide)
    [Op.login "a@b.com" "wrong" [] false 1 2 3,
      Op.signUp "a@b.com" "password2" (fun _ => 1)]
    "password1" [] false 4 5 6).2.2.2 1 ⟨"a@b.com", "9", "000000", false, 0⟩
    (by decide) (Or.inl rfl)).1

/-- C11: round trip. On a store that does not contain the identity, with an
identity the email validator accepts and a password of length at least 8,
signUp succeeds and returns a code of exactly 6 characters; a login that
follows with the same identity and password and that code as the first 2FA
token is Authenticated for that identity, whatever the clock reads and whatever
is typed after the code. -/
theorem C11_sign_up_then_login (hash : String → Nat) (s : UserAuthentication)
    (email pw : String) (draw : Nat → Fin 36)
    (hnew : s.userDatabase email = none) (hvalid : isValidEmail email = true)
    (hlen : 8 ≤ pw.length) :
    ∃ code, (signUpProcess hash s email pw draw).outcome = .Success code ∧
      code.length = 6 ∧
      ∀ (rest : List String) (ended : Bool) (now lockNow : TimePoint) (wall : Int),
        (loginProcess hash (signUpProcess hash s email pw draw).state email pw
          (code :: rest) ended now lockNow wall).outcome = .Authenticated email := by
  refine ⟨generateSecretKey draw, ?_, generateSecretKey_length draw, ?_⟩
  · simp [signUpProcess, hnew, hvalid, isValidPassword, hlen, User.new]
  · intro rest ended now lockNow wall
    have hk := generateSecretKey_ne_resend draw
    simp [signUpProcess, hnew, hvalid, isValidPassword, hlen, User.new, loginProcess,
      twoFactorLoop, hk]

/-- Witness for C11: "a@b.com" signs up with "password1" on the initial state,
is shown "000000", and logs in with it. -/
theorem C11_sign_up_then_login_witness :
    ∃ code, (signUpProcess String.length (UserAuthentication.init true)
        "a@b.com" "password1" (fun _ => 0)).outcome = .Success code ∧
      code.length = 6 ∧
      ∀ (rest : List String) (ended : Bool) (now lockNow : TimePoint) (wall : Int),
        (loginProcess String.length (signUpProcess String.length (UserAuthentication.init true)
            "a@b.com" "password1" (fun _ => 0)).state "a@b.com" "password1"
          (code :: rest) ended now lockNow wall).outcome = .Authenticated "a@b.com" :=
  C11_sign_up_then_login String.length (UserAuthentication.init true)
    "a@b.com" "password1" (fun _ => 0) rfl (by decide) (by decide)

/-- C12: for every output of the random source (six indices in 0..35),
`generateSecretKey` returns a string of exactly 6 characters whose i-th
character is the character of "0123456789ABCDEFGHIJKLMNOPQRSTUVWXYZ" at the
i-th drawn index; every character of a generated key is a digit or an uppercase
letter; and every 6-character string of digits and uppercase letters is the key
generated from some draws. -/
theorem C12_generated_key (draw : Nat → Fin 36) :
    (generateSecretKey draw).length = 6 ∧
    (∀ i, i < 6 →
      (generateSecretKey draw).toList[i]? =
        "0123456789ABCDEFGHIJKLMNOPQRSTUVWXYZ".toList[(draw i).val]?) ∧
    (∀ c ∈ (generateSecretKey draw).toList,
      inRange '0' '9' c = true ∨ inRange 'A' 'Z' c = true) ∧
    ∀ key : String, key.length = 6 →
      (∀ c ∈ key.toList, inRange '0' '9' c = true ∨ inRange 'A' 'Z' c = true) →
      ∃ d : Nat → Fin 36, generateSecretKey d = key := by
  refine ⟨generateSecretKey_length draw, ?_, ?_, ?_⟩
  · intro i hi
    have hget : ∀ k : Fin 36,
        "0123456789ABCDEFGHIJKLMNOPQRSTUVWXYZ".toList[k.val]? = some (charAt k) := by
      intro k
      unfold charAt characters
      rw [List.getElem?_eq_getElem]
      rfl
    rw [hget, generateSecretKey_eq]
    interval_cases i <;> rfl
  · intro c hc
    rw [generateSecretKey_eq] at hc
    simp only [String.toList, List.mem_cons, List.mem_singleton, List.not_mem_nil,
      or_false] at hc
    rcases hc with h | h | h | h | h | h <;> rw [h] <;> exact charAt_digit_or_upper _
  · intro key hlen hchars
    obtain ⟨l⟩ := key
    match l, hlen, hchars with
    | [a, b, c, d, e, f], _, hchars =>
      obtain ⟨ka, ha⟩ := exists_charAt a (hchars a (by simp [String.toList]))
      obtain ⟨kb, hb⟩ := exists_charAt b (hchars b (by simp [String.toList]))
      obtain ⟨kc, hc⟩ := exists_charAt c (hchars c (by simp [String.toList]))
      obtain ⟨kd, hd⟩ := exists_charAt d (hchars d (by simp [String.toList]))
      obtain ⟨ke, he⟩ := exists_charAt e (hchars e (by simp [String.toList]))
      obtain ⟨kf, hf⟩ := exists_charAt f (hchars f (by simp [String.toList]))
      refine ⟨fun i => [ka, kb, kc, kd, ke, kf].getD i 0, ?_⟩
      rw [generateSecretKey_eq]
      simp [ha, hb, hc, hd, he, hf]

/-- C13: with the log file open, a login attempt appends an entry to the log
exactly when it moves the account from unlocked to locked; the entry is then the
single one appended, and it carries the identity typed and the message "Account
locked due to too many failed login attempts". Every other login attempt (a
failure that does not lock, a rejection with AccountLocked, a success, an
unknown identity) leaves the log as it was, and so does every signUp. -/
theorem C13_audit_event (hash : String → Nat) (s : UserAuthentication)
    (email pw : String) (codes : List String) (ended : Bool)
    (now lockNow : TimePoint) (wall : Int)
    (hopen : s.logFileOpen = true) :
    let r := loginProcess hash s email pw codes ended now lockNow wall
    (((s.userDatabase email).map User.isLocked = some false ∧
        (r.state.userDatabase email).map User.isLocked = some true) →
      r.state.logFile = s.logFile ++
        [{ time := wall, email := email,
           message := "Account locked due to too many failed login attempts" }]) ∧
    (¬ ((s.userDatabase email).map User.isLocked = some false ∧
        (r.state.userDatabase email).map User.isLocked = some true) →
      r.state.logFile = s.logFile) ∧
    ∀ (email' pw' : String) (draw : Nat → Fin 36),
      (signUpProcess hash s email' pw' draw).state.logFile = s.logFile := by
  refine ⟨?_, ?_, ?_⟩
  · unfold loginProcess
    cases hdb : s.userDatabase email with
    | none => simp
    | some user =>
      cases hl : user.isLocked <;> simp only [] <;> split_ifs <;>
        simp_all [logEvent_logFile, maxLoginAttempts]
  · unfold loginProcess
    cases hdb : s.userDatabase email with
    | none => simp
    | some user =>
      cases hl : user.isLocked <;> simp only [] <;> split_ifs <;>
        simp_all [logEvent_logFile, maxLoginAttempts]
  · intro email' pw' draw
    unfold signUpProcess
    split_ifs <;> rfl

/-- Witness for C13: the third failure on "a@b.com" (counter 2, log open and
empty) writes the one lock entry. -/
theorem C13_audit_event_witness :
    (loginProcess String.length (sampleState false 0 2)
      "a@b.com" "wrong" [] false 40 41 42).state.logFile =
      [{ time := 42, email := "a@b.com",
         message := "Account locked due to too many failed login attempts" }] :=
  (C13_audit_event String.length (sampleState false 0 2) "a@b.com" "wrong" [] false 40 41 42
    rfl).1 (by decide)

/-- C14: on a store in which the identity is not registered, login fails with
UserNotFound whatever the password and the tokens, prints no 2FA reply, and
returns the state unchanged: the identity still has no account, no
failed-attempt counter is created or changed, and nothing is written to the
log. -/
theorem C14_user_not_found (hash : String → Nat) (s : UserAuthentication)
    (email pw : String) (codes : List String) (ended : Bool)
    (now lockNow : TimePoint) (wall : Int)
    (hnone : s.userDatabase email = none) :
    let r := loginProcess hash s email pw codes ended now lockNow wall
    r.outcome = .UserNotFound ∧ r.replies = [] ∧ r.state = s ∧
    r.state.userDatabase email = none ∧
    r.state.loginAttempts email = s.loginAttempts email ∧
    r.state.logFile = s.logFile := by
  simp [loginProcess, hnone]

/-- Witness for C14: "x@y.org" logs in on the initial state. -/
theorem C14_user_not_found_witness :
    (loginProcess String.length (UserAuthentication.init true)
      "x@y.org" "password1" ["000000"] false 1 2 3).outcome = .UserNotFound ∧
    (loginProcess String.length (UserAuthentication.init true)
      "x@y.org" "password1" ["000000"] false 1 2 3).state.loginAttempts "x@y.org" = none :=
  ⟨(C14_user_not_found String.length (UserAuthentication.init true)
      "x@y.org" "password1" ["000000"] false 1 2 3 rfl).1,
    (C14_user_not_found String.length (UserAuthentication.init true)
      "x@y.org" "password1" ["000000"] false 1 2 3 rfl).2.2.2.2.1⟩

/-- C15: once signUp has created an account, after every sequence of signUp
and login operations the credentialHash stored for it is still the hash of the
password supplied at that signUp; and no single operation, whatever its
outcome, changes the credentialHash of an account that exists. -/
theorem C15_credential_hash_fixed (hash : String → Nat) (s0 : UserAuthentication)
    (email pw : String) (draw : Nat → Fin 36) (code : String)
    (hsign : (signUpProcess hash s0 email pw draw).outcome = .Success code)
    (ops : List Op) :
    (∃ u, (run hash (signUpProcess hash s0 email pw draw).state ops).userDatabase email
        = some u ∧ u.passwordHash = hashPassword hash pw) ∧
    ∀ (s : UserAuthentication) (op : Op) (e : String) (u : User),
      s.userDatabase e = some u →
      ∃ u', (step hash s op).userDatabase e = some u' ∧ u'.passwordHash = u.passwordHash := by
  have h1 : ((signUpProcess hash s0 email pw draw).state.userDatabase email).map User.fixedPart
      = some (email, hashPassword hash pw, code) := by
    unfold signUpProcess at hsign ⊢
    split_ifs at hsign ⊢
    simp only [SignUpOutcome.Success.injEq] at hsign
    simp [User.fixedPart, ← hsign, User.new]
  have h2 := run_fixedPart hash ops email _ _ h1
  refine ⟨?_, ?_⟩
  · cases hs : (run hash (signUpProcess hash s0 email pw draw).state ops).userDatabase email with
    | none => simp [hs] at h2
    | some v =>
      simp only [hs, Option.map_some', Option.some.injEq, User.fixedPart, Prod.mk.injEq] at h2
      exact ⟨v, rfl, h2.2.1⟩
  · intro s op e u hu
    have h3 := step_fixedPart hash s op e u.fixedPart (by simp [hu])
    cases hs : (step hash s op).userDatabase e with
    | none => simp [hs] at h3
    | some v =>
      simp only [hs, Option.map_some', Option.some.injEq, User.fixedPart, Prod.mk.injEq] at h3
      exact ⟨v, rfl, h3.2.1⟩

/-- Witness for C15: "a@b.com" signs up with "password1"; after three failed
logins and a second signUp attempt with another password the stored hash is
still that of "password1". -/
theorem C15_credential_hash_fixed_witness :
    ∃ u, (run String.length
        (signUpProcess String.length (UserAuthentication.init true)
          "a@b.com" "password1" (fun _ => 0)).state
        [Op.login "a@b.com" "wrong" [] false 1 2 3, Op.login "a@b.com" "wrong" [] false 4 5 6,
          Op.login "a@b.com" "wrong" [] false 7 8 9,
          Op.signUp "a@b.com" "longer-password" (fun _ => 1)]).userDatabase "a@b.com"
        = some u ∧ u.passwordHash = hashPassword String.length "password1" :=
  (C15_credential_hash_fixed String.length (UserAuthentication.init true)
    "a@b.com" "password1" (fun _ => 0) "000000" (by decide)
    [Op.login "a@b.com" "wrong" [] false 1 2 3, Op.login "a@b.com" "wrong" [] false 4 5 6,
      Op.login "a@b.com" "wrong" [] false 7 8 9,
      Op.signUp "a@b.com" "longer-password" (fun _ => 1)]).1

/-- C16: the 2FA loop has no attempt limit and writes nothing. In every state
reached from the initial one, when a login reaches the 2FA stage, any number of
tokens that are wrong codes or "resend" leaves the login waiting for the next
one, with one reply for each token; whether or not the input ends after them,
the state is the one with which the stage was entered (the same as with no
token typed): the account is unlocked with its lock timestamp
unchanged, the counter is what it was on entry (0 after an expired lock was
lifted); for an account that was unlocked the whole state is the one before the
login; the log is unchanged; and the stored code typed after these tokens is
still accepted, with the same state. -/
theorem C16_two_factor_unlimited (hash : String → Nat) (b : Bool) (ops : List Op)
    (email pw : String) (now lockNow : TimePoint) (wall : Int) (u : User)
    (wrong : List String) (ended : Bool)
    (hu : (run hash (UserAuthentication.init b) ops).userDatabase email = some u)
    (hopen : u.isLocked = false ∨ 60 * ticksPerSecond ≤ now - u.lastLoginAttempt)
    (hpw : u.passwordHash = hashPassword hash pw)
    (hwrong : ∀ x ∈ wrong, x ≠ u.secretKey) :
    let s := run hash (UserAuthentication.init b) ops
    let entered := loginProcess hash s email pw [] ended now lockNow wall
    let r := loginProcess hash s email pw wrong ended now lockNow wall
    let r' := loginProcess hash s email pw (wrong ++ [u.secretKey]) ended now lockNow wall
    let waiting := loginProcess hash s email pw wrong false now lockNow wall
    waiting.outcome = .AwaitingCode ∧ waiting.replies.length = wrong.length ∧
    r.state = entered.state ∧
    r.state.userDatabase email = some { u with isLocked := false } ∧
    r.state.loginAttempts email = (if u.isLocked then some 0 else s.loginAttempts email) ∧
    (u.isLocked = false → r.state = s) ∧
    r.state.logFile = s.logFile ∧
    r'.outcome = .Authenticated email ∧ r'.state = entered.state := by
  intro s entered r r' waiting
  obtain ⟨hemail, d, hd⟩ := run_wellFormed hash ops _ (init_wellFormed b) email u hu
  have hne : u.secretKey ≠ "resend" := hd ▸ generateSecretKey_ne_resend d
  have hr := loginProcess_verified hash s email pw wrong false now lockNow wall u hu hopen hpw
  have hr' := loginProcess_verified hash s email pw (wrong ++ [u.secretKey]) ended
    now lockNow wall u hu hopen hpw
  have hn : u.isLocked = true → ¬ now - u.lastLoginAttempt < lockoutDuration := by
    intro hl
    rcases hopen with h | h
    · rw [hl] at h
      cases h
    · simpa [lockoutDuration, lockoutDurationSeconds] using h
  have hstate : ∀ codes flag, (loginProcess hash s email pw codes flag now lockNow wall).state
      = { s with userDatabase := assign s.userDatabase email { u with isLocked := false }
                 loginAttempts := if u.isLocked then assign s.loginAttempts email 0
                   else s.loginAttempts } := by
    intro codes flag
    have hu' : s.userDatabase email = some u := hu
    cases hl : u.isLocked with
    | false =>
      have hself : ({ u with isLocked := false } : User) = u := by
        cases u
        simp_all
      rw [hself]
      simp [loginProcess, hu', hl, hpw]
    | true => simp [loginProcess, hu', hl, hn hl, hpw]
  refine ⟨?_, ?_, ?_, ?_, ?_, ?_, ?_, ?_, ?_⟩
  · exact hr.1.trans (by rw [twoFactorLoop_waiting u wrong hwrong])
  · refine (congrArg List.length hr.2).trans ?_
    rw [twoFactorLoop_waiting u wrong hwrong]
    simp
  · rw [hstate, hstate]
  · rw [hstate]
    simp
  · rw [hstate]
    cases hl : u.isLocked <;> simp
  · intro hl
    have hself : ({ u with isLocked := false } : User) = u := by
      cases u
      simp_all
    rw [hstate, hself, assign_self _ _ _ hu]
    simp [hl]
  · rw [hstate]
  · exact hr'.1.trans (by rw [twoFactorLoop_accept_first u hne wrong [] ended hwrong, hemail])
  · rw [hstate, hstate]

/-- Witness for C16: after "a@b.com" signed up with code "000000", a login with
the right password and five wrong or "resend" tokens is still waiting. -/
theorem C16_two_factor_unlimited_witness :
    (loginProcess String.length
      (run String.length (UserAuthentication.init true)
        [Op.signUp "a@b.com" "password1" (fun _ => 0)])
      "a@b.com" "password1" ["111111", "resend", "222222", "resend", "333333"] false
      1 2 3).outcome = .AwaitingCode :=
  (C16_two_factor_unlimited String.length true [Op.signUp "a@b.com" "password1" (fun _ => 0)]
    "a@b.com" "password1" 1 2 3 ⟨"a@b.com", "9", "000000", false, 0⟩
    ["111111", "resend", "222222", "resend", "333333"] false
    (by decide) (Or.inl rfl) (by decide) (by decide)).1

/-- C17: a string is accepted by `isValidEmail` exactly when it has the shape
local@domain with a dot in the domain: it contains exactly one '@', the part
before it is non-empty and uses only letters, digits and `. _ % + -`, the part
after it uses only letters, digits, '.' and '-', and its last '.' is preceded by
at least one character and followed by at least two letters and nothing else.
So "a@b.com" is accepted and "a@b", "@b.com" and "a@b.c" are rejected. -/
theorem C17_email_shape :
    (∀ email : String, isValidEmail email = true ↔ emailShape email.toList) ∧
    isValidEmail "a@b.com" = true ∧ isValidEmail "a@b" = false ∧
    isValidEmail "@b.com" = false ∧ isValidEmail "a@b.c" = false := by
  refine ⟨?_, by decide, by decide, by decide, by decide⟩
  intro email
  unfold isValidEmail
  rw [emailPattern_fullMatch]
  have hAtLocal : isLocalChar '@' = false := by decide
  have hAtDomain : isDomainChar '@' = false := by decide
  have hAtLetter : isLetter '@' = false := by decide
  have hDotLetter : isLetter '.' = false := by decide
  have hDotDomain : isDomainChar '.' = true := by decide
  constructor
  · rintro ⟨loc, dom, tld, hl, ⟨hloc, hlocAll⟩, ⟨hdom, hdomAll⟩, ⟨htld, htldAll⟩⟩
    refine ⟨loc, dom ++ '.' :: tld, hl, ?_, ?_, hloc, hlocAll, ?_, dom, tld, rfl, ?_, hdom,
      htld, htldAll⟩
    · intro h
      have := hlocAll _ h
      rw [hAtLocal] at this
      cases this
    · intro h
      simp only [List.mem_append, List.mem_cons] at h
      rcases h with h | h | h
      · have := hdomAll _ h
        rw [hAtDomain] at this
        cases this
      · cases h
      · have := htldAll _ h
        rw [hAtLetter] at this
        cases this
    · intro c h
      simp only [List.mem_append, List.mem_cons] at h
      rcases h with h | h | h
      · exact hdomAll c h
      · rw [h]
        exact hDotDomain
      · simp [isDomainChar, htldAll c h]
    · intro h
      have := htldAll _ h
      rw [hDotLetter] at this
      cases this
  · rintro ⟨before, after, hl, _, _, hbefore, hbeforeAll, hafterAll, host, tld, rfl, _, hhost,
      htld, htldAll⟩
    exact ⟨before, host, tld, hl, ⟨hbefore, hbeforeAll⟩,
      ⟨hhost, fun c hc => hafterAll c (by simp [hc])⟩, ⟨htld, htldAll⟩⟩

/-- C18: in every state reached from the initial one by signUp and login
operations, for every registered account the failed-attempt counter (0 while no
counter exists) is between 0 and 3, the account is locked if and only if the
counter equals 3, and the lock timestamp of a locked account is the clock value
written by the last login that locked it, so the timestamp compared against the
clock at line 170 is never the default one; an identity without account has no
counter. -/
theorem C18_lockout_invariant (hash : String → Nat) (b : Bool) (ops : List Op)
    (e : String) (u : User)
    (hu : (run hash (UserAuthentication.init b) ops).userDatabase e = some u) :
    let s := run hash (UserAuthentication.init b) ops
    0 ≤ (s.loginAttempts e).getD 0 ∧ (s.loginAttempts e).getD 0 ≤ 3 ∧
    (u.isLocked = true ↔ (s.loginAttempts e).getD 0 = 3) ∧
    (u.isLocked = true →
      (lockWrites hash e (UserAuthentication.init b) ops).getLast?
        = some u.lastLoginAttempt) ∧
    ∀ e', s.userDatabase e' = none → s.loginAttempts e' = none := by
  intro s
  have hc := run_counterInv hash ops _ (init_counterInv b)
  have hs : StampInv (UserAuthentication.init b) (fun _ => []) := by
    intro e' u' h'
    simp [UserAuthentication.init] at h'
  have ht := run_stampInv hash ops _ _ hs e u hu
  obtain ⟨h0, h3, hiff⟩ := hc.2 e u hu
  refine ⟨h0, h3, hiff, ?_, hc.1⟩
  intro hl
  simpa using ht hl

/-- Witness for C18: after sign-up and three failed logins "a@b.com" is locked
with counter 3, and its lock timestamp 8 is the one the third login wrote. -/
theorem C18_lockout_invariant_witness :
    (lockWrites String.length "a@b.com" (UserAuthentication.init true)
      [Op.signUp "a@b.com" "password1" (fun _ => 0), Op.login "a@b.com" "wrong" [] false 1 2 3,
        Op.login "a@b.com" "wrong" [] false 4 5 6, Op.login "a@b.com" "wrong" [] false 7 8 9]).getLast?
      = some 8 :=
  (C18_lockout_invariant String.length true
    [Op.signUp "a@b.com" "password1" (fun _ => 0), Op.login "a@b.com" "wrong" [] false 1 2 3,
      Op.login "a@b.com" "wrong" [] false 4 5 6, Op.login "a@b.com" "wrong" [] false 7 8 9]
    "a@b.com" ⟨"a@b.com", "9", "000000", true, 8⟩ (by decide)).2.2.2.1 rfl

/-- C19: a login on identity A changes nothing that belongs to another
identity B: whatever the outcome, B is registered after the login iff it was
before, with the same account record (credentialHash, 2FA code, locked flag,
lock timestamp), and B has the same failed-attempt counter, or still none. -/
theorem C19_login_frame (hash : String → Nat) (s : UserAuthentication)
    (a pw : String) (codes : List String) (ended : Bool)
    (now lockNow : TimePoint) (wall : Int)
    (b : String) (hne : b ≠ a) :
    let r := loginProcess hash s a pw codes ended now lockNow wall
    r.state.userDatabase b = s.userDatabase b ∧
    r.state.loginAttempts b = s.loginAttempts b := by
  unfold loginProcess
  cases hdb : s.userDatabase a with
  | none => simp
  | some user =>
    simp only []
    split_ifs <;> simp [assign, hne]

/-- Witness for C19: "a@b.com" and "c@d.org" are registered; the third failed
login on "a@b.com", which locks it, leaves the account of "c@d.org" as created. -/
theorem C19_login_frame_witness :
    (loginProcess String.length
      (run String.length (UserAuthentication.init true)
        [Op.signUp "a@b.com" "password1" (fun _ => 0),
          Op.signUp "c@d.org" "password22" (fun _ => 1),
          Op.login "a@b.com" "wrong" [] false 1 2 3, Op.login "a@b.com" "wrong" [] false 4 5 6])
      "a@b.com" "wrong" [] false 7 8 9).state.userDatabase "c@d.org" =
      some ⟨"c@d.org", "10", "111111", false, 0⟩ :=
  ((C19_login_frame String.length
    (run String.length (UserAuthentication.init true)
      [Op.signUp "a@b.com" "password1" (fun _ => 0),
        Op.signUp "c@d.org" "password22" (fun _ => 1),
        Op.login "a@b.com" "wrong" [] false 1 2 3, Op.login "a@b.com" "wrong" [] false 4 5 6])
    "a@b.com" "wrong" [] false 7 8 9 "c@d.org" (by decide)).1).trans (by decide)

/-- C20: no key made by `generateSecretKey` is the reserved word "resend", so
in every state reached from the initial one each stored code differs from
"resend" and the 2FA loop of the account can always be completed: typed as a
token, the stored code takes the accept branch, and after any tokens it ends the
loop with Authenticated for the identity, whatever the variable `secretKey`
held before and whether or not the input ends afterwards. -/
theorem C20_code_never_resend (hash : String → Nat) (b : Bool) (ops : List Op)
    (email : String) (u : User)
    (hu : (run hash (UserAuthentication.init b) ops).userDatabase email = some u) :
    (∀ draw : Nat → Fin 36, generateSecretKey draw ≠ "resend") ∧
    u.secretKey ≠ "resend" ∧
    (∀ (v : String) (rest : List String) (ended : Bool),
      twoFactorLoop u v (u.secretKey :: rest) ended = (.Authenticated email, [])) ∧
    ∀ (v : String) (pre rest : List String) (ended : Bool),
      (twoFactorLoop u v (pre ++ u.secretKey :: rest) ended).1 = .Authenticated email := by
  obtain ⟨hemail, d, hd⟩ := run_wellFormed hash ops _ (init_wellFormed b) email u hu
  have hne : u.secretKey ≠ "resend" := hd ▸ generateSecretKey_ne_resend d
  refine ⟨generateSecretKey_ne_resend, hne, ?_, ?_⟩
  · intro v rest ended
    simp [twoFactorLoop, hne, hemail]
  · intro v pre rest ended
    rw [twoFactorLoop_completes u hne pre rest ended v, hemail]

/-- Witness for C20: the account "a@b.com" created with draws all 0. -/
theorem C20_code_never_resend_witness :
    twoFactorLoop ⟨"a@b.com", "9", "000000", false, 0⟩ "" ("000000" :: ["resend"]) true
      = (.Authenticated "a@b.com", []) :=
  (C20_code_never_resend String.length true [Op.signUp "a@b.com" "password1" (fun _ => 0)]
    "a@b.com" ⟨"a@b.com", "9", "000000", false, 0⟩ (by decide)).2.2.1 "" ["resend"] true

end UserAuth
